import Mathlib

/-!
# Verification of the chiptune composer's data model, MIDI importer and scheduler

Shallow embedding of `src/modules/dataModel.js`, `src/modules/midiImport.js`
and the scheduling part of `src/modules/audioEngine.js`.

Modelling conventions:
* JavaScript values are modelled by the inductive `JsVal`.  A JS number is
  `num (v : Option ℚ)`; `num none` stands for a non-finite number (NaN and
  ±Infinity are conflated: the code under verification only ever observes
  non-finite numbers through `Number.isFinite`, never through a sign test or
  a truthiness test that would distinguish NaN from Infinity on a path a
  claim exercises).
* Arrays carry a field list in addition to their elements because the code
  assigns named properties (`pattern.rows = ...`) to values that may be
  arrays (`normalized.pattern = safe.pattern || []`).
* Object-literal field lookup is own-key lookup on an association list kept
  in insertion order (assignment to an existing key updates it in place;
  assignment to a fresh key appends), matching JS enumeration order for
  string keys.
* `Math.random().toString(36).slice(2, 10)` id generation is modelled by a
  counter threaded through every function that allocates ids; each fresh id
  is a distinct non-empty string, matching the (probability-one) behaviour
  of the source.
* JS exceptions (the source can throw `TypeError`s from
  `pattern.events.filter` / `row.forEach` on malformed data) are modelled
  with `Except String`.
-/

/- Batteries marks the `Rat` arithmetic operations `@[irreducible]`, which
prevents concrete rational computations from reducing during proof
elaboration (`decide`, `rfl`).  The model is executable, so restore the
ordinary reducibility of these operations. -/
set_option allowUnsafeReducibility true
attribute [semireducible] Rat.mul Rat.add Rat.sub Rat.div Rat.inv

inductive JsVal where
  | null
  | undef
  | bool (b : Bool)
  | num (v : Option ℚ)
  | str (s : String)
  | arr (elems : List JsVal) (fields : List (String × JsVal))
  | obj (fields : List (String × JsVal))

namespace JsVal

/-- A plain array literal (no named properties). -/
def arrL (elems : List JsVal) : JsVal := .arr elems []

/-- Association-list lookup used for JS own-property reads. -/
def lookupField : List (String × JsVal) → String → Option JsVal
  | [], _ => none
  | (k, v) :: rest, key => if k = key then some v else lookupField rest key

/-- Property read `v[key]`: `undefined` on primitives and missing keys.
(Reads of named properties on arrays consult the array's field list;
numeric indices are never used as named properties by this code.) -/
def getF : JsVal → String → JsVal
  | obj fs, key => (lookupField fs key).getD .undef
  | arr _ fs, key => (lookupField fs key).getD .undef
  | _, _ => (.undef)

/-- Association-list update: existing key updated in place, fresh key
appended, matching JS property-assignment enumeration order. -/
def setField : List (String × JsVal) → String → JsVal → List (String × JsVal)
  | [], key, v => [(key, v)]
  | (k, w) :: rest, key, v =>
    if k = key then (k, v) :: rest else (k, w) :: setField rest key v

/-- Property write `target[key] = v` (no-op on primitives, where JS would
silently discard the write on a boxed primitive). -/
def setF : JsVal → String → JsVal → JsVal
  | obj fs, key, v => obj (setField fs key v)
  | arr es fs, key, v => arr es (setField fs key v)
  | other, _, _ => other

/-- JS truthiness.  `num none` (a non-finite number) is treated as falsy:
NaN is falsy and the conflated Infinity case is never reachable with a
truthiness test in the verified code paths. -/
def truthy : JsVal → Bool
  | null => false
  | undef => false
  | bool b => b
  | num none => false
  | num (some q) => q ≠ 0
  | str s => s ≠ ""
  | arr _ _ => true
  | obj _ => true

/-- `value && typeof value === "object"` as used by `isObject` in
dataModel.js (arrays are objects; `null` is excluded by truthiness). -/
def isObjectLike : JsVal → Bool
  | obj _ => true
  | arr _ _ => true
  | _ => false

/-- `Number.isFinite(v)`. -/
def isFiniteNum : JsVal → Bool
  | num (some _) => true
  | _ => false

/-- The rational value of a finite number, `none` otherwise. -/
def asFinite : JsVal → Option ℚ
  | num (some q) => some q
  | _ => none

/-- `Array.isArray(v)` together with the element list. -/
def asArray : JsVal → Option (List JsVal)
  | arr es _ => some es
  | _ => none

/-- The string payload of a string value. -/
def asString : JsVal → Option String
  | str s => some s
  | _ => none

end JsVal

/-- The raw own-property lookup (present vs. absent), used to state that a
repeated property write is the identity. -/
def lookupF : JsVal → String → Option JsVal
  | .obj fs, key => JsVal.lookupField fs key
  | .arr _ fs, key => JsVal.lookupField fs key
  | _, _ => none

/-! ## dataModel.js constants -/

/-- `DRUM_KITS` (dataModel.js:1-6). -/
def DRUM_KITS : String → Option (List String)
  | "NES" => some ["kick", "snare", "hat", "perc"]
  | "Atari" => some ["kick", "snare", "hat", "noise"]
  | "C64" => some ["kick", "snare", "hat", "clap", "tom"]
  | "Sega" => some ["kick", "snare", "hat", "fm-tom", "cowbell"]
  | _ => none

/-- `DEFAULT_DRUM_ROWS = DRUM_KITS.NES` (dataModel.js:8). -/
def DEFAULT_DRUM_ROWS : List String := ["kick", "snare", "hat", "perc"]

/-- `CONSOLE_WAVES` (dataModel.js:10-42). -/
def CONSOLE_WAVES : String → Option (List String)
  | "Basics" => some ["sine", "triangle", "square", "saw", "pulse", "pwm",
      "supersaw", "noise", "noise-pink", "noise-brown"]
  | "Complex" => some ["sub-sine", "bitcrush", "ring-mod", "am", "fold",
      "drive", "hard-sync", "phaser", "chorus"]
  | "NES" => some ["pulse12", "pulse25", "pulse50"]
  | "Famicom" => some ["pulse12", "pulse25", "pulse50", "triangle", "noise"]
  | "GameBoy" => some ["pulse12", "pulse25", "pulse50", "wave", "noise"]
  | "TurboGrafx16" => some ["wave1", "wave2", "wave3"]
  | "SNES" => some ["wave1", "wave2", "noise"]
  | "Atari" => some ["square", "noise"]
  | "C64" => some ["triangle", "saw", "pulse"]
  | "Sega" => some ["fm"]
  | _ => none

/-- `MAX_TRACKS` (dataModel.js:44). -/
def MAX_TRACKS : ℕ := 16

/-- One template entry of `DEFAULT_TRACKS` (dataModel.js:46-52). -/
structure TrackTemplate where
  type : String
  console : String
  waveform : String
deriving DecidableEq

/-- `DEFAULT_TRACKS` (dataModel.js:46-52). -/
def DEFAULT_TRACKS : List TrackTemplate :=
  [⟨"synth", "NES", "pulse25"⟩,
   ⟨"synth", "C64", "triangle"⟩,
   ⟨"synth", "Atari", "square"⟩,
   ⟨"synth", "Sega", "fm"⟩,
   ⟨"drums", "NES", "noise"⟩]

/-- `createId` (dataModel.js:54), modelled by a threaded counter producing
distinct non-empty strings. -/
def createId (gen : ℕ) : String × ℕ := ("id" ++ toString gen, gen + 1)

/-- `Math.min` on two finite numbers (an `if` rather than the lattice
`min` so that concrete values reduce in the kernel). -/
def qMin (a b : ℚ) : ℚ := if a ≤ b then a else b

/-- `Math.max` on two finite numbers. -/
def qMax (a b : ℚ) : ℚ := if b ≤ a then a else b

/-- `clamp` (dataModel.js:106): `Math.min(Math.max(value, min), max)`. -/
def jsClamp (value lo hi : ℚ) : ℚ := qMin (qMax value lo) hi

/-! ## Structured model types

The normalizer turns arbitrary `JsVal` input into values of these types.
Numeric note fields keep the `Option ℚ` JS-number representation because
MIDI import can produce non-finite values (`ppq = 0` division) and
`undefined` pitches, which the scheduler then guards against. -/

/-- A synth note (dataModel.js `createNote` shape). -/
structure Note where
  pitch : Option ℚ
  start : Option ℚ
  duration : Option ℚ
  velocity : Option ℚ
deriving DecidableEq

/-- A block.  `pattern` stays a raw `JsVal`: for synth tracks the source
keeps whatever array was loaded; for drum tracks it is the object that
`ensureDrumPattern` materializes and mutates in place. -/
structure Block where
  id : String
  startBeat : ℚ
  length : Option ℚ
  notes : List Note
  pattern : JsVal

/-- The view of a structured `Block` that `ensureDrumPattern` reads: its
`length` and `pattern` properties. -/
def blockStub (b : Block) : JsVal :=
  .obj [("length", .num b.length), ("pattern", b.pattern)]

structure Track where
  id : String
  type : String
  console : String
  waveform : String
  volume : ℚ
  pan : ℚ
  octave : ℚ
  mute : Bool
  solo : Bool
  blocks : List Block

structure Project where
  name : String
  bpm : ℚ
  tracks : List Track

/-- `createTrack(index, options)` (dataModel.js:75-95). -/
def createTrack (index : ℕ) (options : Option String) (gen : ℕ) : Track × ℕ :=
  let template := (DEFAULT_TRACKS.get? index).getD (DEFAULT_TRACKS.get ⟨0, by decide⟩)
  let baseTemplate :=
    match options with
    | some "drums" => DEFAULT_TRACKS.get ⟨4, by decide⟩
    | some "synth" => DEFAULT_TRACKS.get ⟨0, by decide⟩
    | _ => template
  let (tid, gen) := createId gen
  (⟨tid, baseTemplate.type, baseTemplate.console, baseTemplate.waveform,
    4/5, 0, 0, false, false, []⟩, gen)

/-- `createBlock({startBeat, length, type})` (dataModel.js:65-73); `notes`
is `[]` for both types and the initial `pattern` is an empty array. -/
def createBlock (startBeat : ℚ) (length : ℚ) (gen : ℕ) : Block × ℕ :=
  let (bid, gen) := createId gen
  (⟨bid, startBeat, some length, [], JsVal.arrL []⟩, gen)

/-- `getDrumRowsForConsole` (dataModel.js:234-236). -/
def getDrumRowsForConsole (consoleName : String) : List String :=
  (DRUM_KITS consoleName).getD DEFAULT_DRUM_ROWS

/-! ## ensureDrumPattern (dataModel.js:180-232)

The JS function takes the block, reads `block.length` and `block.pattern`,
mutates the pattern object in place, stores it back into `block.pattern`
and returns it.  The model returns the pattern, the updated block and the
id counter; `Except` captures the `TypeError` the source throws when
`pattern.events` is a truthy non-array (`.filter` on a non-function) or a
grid row is not an array (`.forEach`).

All call sites in the repository pass a string array for `rows`, so the
parameter is typed `List String`; `pattern.rows` entries that are not
strings (never produced by this code base) are read back as `""`. -/

/-- Read a `rows` array of strings out of a pattern value. -/
def rowStr (v : JsVal) : String := (v.asString).getD ""

/-- The legacy-grid conversion (dataModel.js:183-202): one event per active
grid cell.  `stepBeats = block.length / steps` is non-finite when the
division misbehaves (`none` operand or zero divisor), in which case the
later per-field normalization substitutes the defaults, as in JS where the
values come out NaN/Infinity. -/
def gridEvents (blockLength : Option ℚ) (steps : Option ℚ)
    (legacyRows : Option (List JsVal)) (rows : List String)
    (grid : List (List JsVal)) (gen : ℕ) : List JsVal × ℕ :=
  let stepBeats : Option ℚ :=
    match blockLength, steps with
    | some l, some s => if s = 0 then none else some (l / s)
    | _, _ => none
  let rec perRow (rowIdx : ℕ) (rowsLeft : List (List JsVal)) (gen : ℕ)
      (acc : List JsVal) : List JsVal × ℕ :=
    match rowsLeft with
    | [] => (acc, gen)
    | row :: rest =>
      let legacyEntry : JsVal :=
        match legacyRows with
        | some lr => (lr.get? rowIdx).getD .undef
        | none => ((rows.get? rowIdx).map JsVal.str).getD .undef
      let drum : JsVal :=
        if legacyEntry.truthy then legacyEntry
        else ((rows.get? rowIdx).map JsVal.str).getD .undef
      if drum.truthy then
        let rec perStep (stepIdx : ℕ) (cells : List JsVal) (gen : ℕ)
            (acc : List JsVal) : List JsVal × ℕ :=
          match cells with
          | [] => (acc, gen)
          | cell :: cellsRest =>
            if cell.truthy then
              let (eid, gen) := createId gen
              let ev : JsVal := .obj
                [("id", .str eid),
                 ("drum", drum),
                 ("start", .num (stepBeats.map (fun sb => (stepIdx : ℚ) * sb))),
                 ("duration", .num stepBeats),
                 ("velocity", .num (some (9/10)))]
              perStep (stepIdx + 1) cellsRest gen (acc ++ [ev])
            else
              perStep (stepIdx + 1) cellsRest gen acc
        let (acc, gen) := perStep 0 row gen acc
        perRow (rowIdx + 1) rest gen acc
      else
        perRow (rowIdx + 1) rest gen acc
  perRow 0 grid gen []

/-- Normalization of one event by the `.filter(...).map(...)` pass
(dataModel.js:210-218). -/
def normalizeDrumEvent (event : JsVal) (gen : ℕ) : JsVal × ℕ :=
  let (fallbackId, gen') := createId gen
  let idVal := event.getF "id"
  let (idOut, gen) :=
    if idVal.truthy then (idVal, gen) else (JsVal.str fallbackId, gen')
  let startV := event.getF "start"
  let durV := event.getF "duration"
  let velV := event.getF "velocity"
  (.obj
    [("id", idOut),
     ("drum", event.getF "drum"),
     ("start", .num (some ((startV.asFinite.map (fun q => qMax 0 q)).getD 0))),
     ("duration", .num (some ((durV.asFinite.map (fun q => qMax (1/20) q)).getD (1/4)))),
     ("velocity", .num (some ((velV.asFinite.map (fun q => jsClamp q 0 1)).getD (9/10))))],
   gen)

/-- Sequential normalization of the events array. -/
def normalizeDrumEvents : List JsVal → ℕ → List JsVal × ℕ
  | [], gen => ([], gen)
  | e :: rest, gen =>
    let (e', gen) := normalizeDrumEvent e gen
    let (rest', gen) := normalizeDrumEvents rest gen
    (e' :: rest', gen)

/-- Volume backfill (dataModel.js:224-228). -/
def backfillVolumes (volumes : JsVal) : List String → JsVal
  | [] => volumes
  | rowName :: rest =>
    let volumes :=
      if (volumes.getF rowName).isFiniteNum then volumes
      else volumes.setF rowName (.num (some (9/10)))
    backfillVolumes volumes rest

/-- The legacy-grid phase of `ensureDrumPattern` (dataModel.js:183-202):
when `pattern.events` is falsy and `pattern.grid` is an array, build events
from the grid (throwing the JS `TypeError` when a grid row is not an
array). -/
def ensureLegacyGrid (blockLength : Option ℚ) (pattern : JsVal)
    (rows : List String) (gen : ℕ) : Except String (JsVal × ℕ) :=
  if (pattern.getF "events").truthy = false then
    match (pattern.getF "grid").asArray with
    | some gridElems =>
      let steps := (pattern.getF "steps").asFinite.orElse (fun _ => some 16)
      let legacyRows := (pattern.getF "rows").asArray
      match gridElems.mapM (fun row =>
        match row.asArray with
        | some cells => Except.ok cells
        | none => Except.error "TypeError: row.forEach is not a function") with
      | .error e => .error e
      | .ok gridRows =>
        let (evs, gen) := gridEvents blockLength steps legacyRows rows gridRows gen
        .ok (pattern.setF "events" (JsVal.arrL evs), gen)
    | none => .ok (pattern, gen)
  else
    .ok (pattern, gen)

/-- The volumes step of `ensureDrumPattern` (dataModel.js:220-228): create
the volumes object when missing or not an object, then backfill a default
0.9 level for every row without a finite one. -/
def ensureVolumes (pattern : JsVal) (effRows : List String) : JsVal :=
  let volumes0 := pattern.getF "volumes"
  let pattern :=
    if volumes0.truthy && volumes0.isObjectLike then pattern
    else pattern.setF "volumes" (JsVal.obj [])
  pattern.setF "volumes" (backfillVolumes (pattern.getF "volumes") effRows)

/-- The normalization phase of `ensureDrumPattern` (dataModel.js:204-228):
default the events array, rewrite `pattern.rows`, filter and normalize the
events (throwing the JS `TypeError` when `pattern.events` is a truthy
non-array), and backfill `pattern.volumes`. -/
def ensureNormalizePhase (pattern : JsVal) (rows : List String) (gen : ℕ) :
    Except String (JsVal × ℕ) :=
  -- `if (!pattern.events) pattern.events = []`
  let pattern :=
    if (pattern.getF "events").truthy then pattern
    else pattern.setF "events" (JsVal.arrL [])
  -- `pattern.rows = [...rows]` with empty-rows fallback
  let effRows := if rows ≠ [] then rows else DEFAULT_DRUM_ROWS
  let pattern := pattern.setF "rows" (JsVal.arrL (effRows.map JsVal.str))
  -- `pattern.events = pattern.events.filter(...).map(...)`;
  -- a truthy non-array `events` makes JS throw `.filter is not a function`
  match (pattern.getF "events").asArray with
  | none => .error "TypeError: pattern.events.filter is not a function"
  | some events =>
    -- `pattern.rows.includes(event.drum)`: the rows are strings, so the
    -- strict-equality membership test can only succeed on a string drum
    let kept := events.filter (fun e =>
      e.truthy && (match (e.getF "drum").asString with
                   | some s => effRows.contains s
                   | none => false))
    let (normalized, gen) := normalizeDrumEvents kept gen
    let pattern := pattern.setF "events" (JsVal.arrL normalized)
    .ok (ensureVolumes pattern effRows, gen)

/-- `ensureDrumPattern(block, rows)` (dataModel.js:180-232).  Returns the
materialized pattern, the block with `block.pattern` replaced by it
(`block.pattern = pattern; return pattern`), and the id counter. -/
def ensureDrumPattern (block : JsVal) (rows : List String) (gen : ℕ) :
    Except String (JsVal × JsVal × ℕ) :=
  let pattern0 := block.getF "pattern"
  let pattern := if pattern0.isObjectLike then pattern0 else JsVal.obj []
  match ensureLegacyGrid (block.getF "length").asFinite pattern rows gen with
  | .error e => .error e
  | .ok (pattern, gen) =>
    match ensureNormalizePhase pattern rows gen with
    | .error e => .error e
    | .ok (pattern, gen) => .ok (pattern, block.setF "pattern" pattern, gen)

/-! ## Normalization pipeline (dataModel.js:110-178) -/

/-- `normalizeNote` (dataModel.js:110-118). -/
def normalizeNote (note : JsVal) : Note :=
  let safe := if note.isObjectLike then note else JsVal.obj []
  { pitch := some (((safe.getF "pitch").asFinite).getD 60)
    start := some ((((safe.getF "start").asFinite).map (fun q => qMax 0 q)).getD 0)
    duration := some ((((safe.getF "duration").asFinite).map (fun q => qMax (1/8) q)).getD (1/4))
    velocity := some ((((safe.getF "velocity").asFinite).map (fun q => jsClamp q 0 1)).getD (9/10)) }

/-- `normalizeBlocks` body for one block (dataModel.js:122-139). -/
def normalizeBlock (block : JsVal) (type : String) (drumRows : List String)
    (gen : ℕ) : Except String (Block × ℕ) := do
  let safe := if block.isObjectLike then block else JsVal.obj []
  let startBeat := (((safe.getF "startBeat").asFinite).map (fun q => qMax 0 q)).getD 0
  let length := (((safe.getF "length").asFinite).map (fun q => qMax (1/4) q)).getD 4
  let (created, gen) := createBlock startBeat length gen
  let bid := ((safe.getF "id").asString).getD created.id
  if type = "synth" then
    let notes := match (safe.getF "notes").asArray with
      | some ns => ns.map normalizeNote
      | none => []
    let pat := match (safe.getF "pattern").asArray with
      | some _ => safe.getF "pattern"
      | none => JsVal.arrL []
    return ({ created with id := bid, notes := notes, pattern := pat }, gen)
  else
    -- `normalized.pattern = safe.pattern || []` then `ensureDrumPattern(normalized, rows)`
    let rawPattern := if (safe.getF "pattern").truthy then safe.getF "pattern" else JsVal.arrL []
    let stub : JsVal := .obj [("length", .num (some length)), ("pattern", rawPattern)]
    let (pat, _, gen) ← ensureDrumPattern stub drumRows gen
    return ({ created with id := bid, notes := [], pattern := pat }, gen)

/-- `normalizeBlocks` (dataModel.js:120-141). -/
def normalizeBlocks (blocks : JsVal) (type : String) (drumRows : List String)
    (gen : ℕ) : Except String (List Block × ℕ) := do
  match blocks.asArray with
  | none => return ([], gen)
  | some bs =>
    let rec go : List JsVal → ℕ → Except String (List Block × ℕ)
      | [], gen => return ([], gen)
      | b :: rest, gen => do
        let (b', gen) ← normalizeBlock b type drumRows gen
        let (rest', gen) ← go rest gen
        return (b' :: rest', gen)
    go bs gen

/-- `normalizeTrack` (dataModel.js:143-164). -/
def normalizeTrack (track : JsVal) (index : ℕ) (gen : ℕ) :
    Except String (Track × ℕ) := do
  let (base, gen) := createTrack index none gen
  let safe := if track.isObjectLike then track else JsVal.obj []
  let type :=
    if (safe.getF "type").asString = some "drums" then "drums"
    else if (safe.getF "type").asString = some "synth" then "synth"
    else base.type
  let consoleName :=
    match (safe.getF "console").asString with
    | some s => if (CONSOLE_WAVES s).isSome then s else base.console
    | none => base.console
  let waves := (CONSOLE_WAVES consoleName).getD []
  let waveform :=
    match (safe.getF "waveform").asString with
    | some w =>
      if waves.contains w then w
      else match waves.head? with
        | some w0 => if w0 = "" then base.waveform else w0
        | none => base.waveform
    | none =>
      match waves.head? with
      | some w0 => if w0 = "" then base.waveform else w0
      | none => base.waveform
  let (blocks, gen) ← normalizeBlocks (safe.getF "blocks") type
    (getDrumRowsForConsole consoleName) gen
  return ({ base with
    id := ((safe.getF "id").asString).getD base.id
    type := type
    console := consoleName
    waveform := waveform
    volume := (((safe.getF "volume").asFinite).map (fun q => jsClamp q 0 1)).getD base.volume
    pan := (((safe.getF "pan").asFinite).map (fun q => jsClamp q (-1) 1)).getD base.pan
    octave := (((safe.getF "octave").asFinite).map (fun q => jsClamp q (-3) 3)).getD base.octave
    mute := (safe.getF "mute").truthy
    solo := (safe.getF "solo").truthy
    blocks := blocks }, gen)

/-- The indexed track construction of `normalizeProject`
(dataModel.js:172-175). -/
def normalizeTracks (incoming : List JsVal) (index count : ℕ) (gen : ℕ) :
    Except String (List Track × ℕ) :=
  match count with
  | 0 => return ([], gen)
  | c + 1 => do
    let (t, gen) ← normalizeTrack ((incoming.get? index).getD .undef) index gen
    let (rest, gen) ← normalizeTracks incoming (index + 1) c gen
    return (t :: rest, gen)

/-- `normalizeProject` (dataModel.js:166-178). -/
def normalizeProject (rawProject : JsVal) (gen : ℕ) :
    Except String (Project × ℕ) := do
  let safe := if rawProject.isObjectLike then rawProject else JsVal.obj []
  let bpm := (((safe.getF "bpm").asFinite).map (fun q => jsClamp q 40 240)).getD 120
  let incomingTracks := (((safe.getF "tracks").asArray).getD []).take MAX_TRACKS
  let name :=
    match (safe.getF "name").asString with
    | some s => if s.trim ≠ "" then s.trim else "Untitled Project"
    | none => "Untitled Project"
  let trackCount := max incomingTracks.length 5
  let (tracks, gen) ← normalizeTracks incomingTracks 0 trackCount gen
  return ({ name := name, bpm := bpm, tracks := tracks }, gen)

/-! ## midiImport.js — binary MIDI parser (midiImport.js:1-130)

Bytes are `Fin 256` (the content of a `Uint8Array`).  Offsets are `ℤ`
because JS `readUint32` is built from 32-bit signed shifts and ors and a
chunk length with a high first byte comes out negative, after which the
parser walks negative offsets (reading `undefined`, modelled `none`).
`&`, `|` and `<<` are modelled with JS ToInt32 semantics. -/

abbrev MByte := Fin 256

/-- `(z | 0)` style ToUint32: the 32 low bits of an integer. -/
def toUint32 (z : ℤ) : ℕ := (z % (2 ^ 32 : ℕ)).toNat

/-- JS ToInt32. -/
def toInt32 (z : ℤ) : ℤ :=
  let u := toUint32 z
  if u < 2 ^ 31 then (u : ℤ) else (u : ℤ) - 2 ^ 32

/-- JS 32-bit `|`. -/
def jsOr (a b : ℤ) : ℤ := toInt32 ((toUint32 a) ||| (toUint32 b))

/-- JS 32-bit `&`. -/
def jsAnd (a b : ℤ) : ℤ := toInt32 ((toUint32 a) &&& (toUint32 b))

/-- JS 32-bit `<<` (shift counts used by the source are literals < 32). -/
def jsShl (a : ℤ) (k : ℕ) : ℤ := toInt32 ((toUint32 a) <<< k)

/-- `data[i]` on a `Uint8Array`: `undefined` (here `none`) out of bounds. -/
def byteAt (data : List MByte) (i : ℤ) : Option ℕ :=
  if i < 0 then none else (data.get? i.toNat).map Fin.val

/-- A byte read coerced to a number the way JS arithmetic does:
`undefined` becomes NaN, and NaN converts to 0 under ToInt32. -/
def byteAt0 (data : List MByte) (i : ℤ) : ℤ := ((byteAt data i).getD 0 : ℕ)

/-- `readUint32` (midiImport.js:8-9): big-endian, but through signed 32-bit
`<<`/`|`, so a first byte ≥ 0x80 yields a negative value. -/
def readUint32 (data : List MByte) (offset : ℤ) : ℤ :=
  jsOr (jsOr (jsOr (jsShl (byteAt0 data offset) 24)
                   (jsShl (byteAt0 data (offset + 1)) 16))
             (jsShl (byteAt0 data (offset + 2)) 8))
       (byteAt0 data (offset + 3))

/-- `readUint16` (midiImport.js:11); always in `[0, 2^16)`. -/
def readUint16 (data : List MByte) (offset : ℤ) : ℕ :=
  ((byteAt data offset).getD 0) <<< 8 ||| (byteAt data (offset + 1)).getD 0

/-- `Uint8Array.subarray` index clamping (negative indices count from the
end, then clamp into `[0, length]`). -/
def subIdx (len : ℕ) (i : ℤ) : ℕ :=
  if i < 0 then ((len : ℤ) + i).toNat else min i.toNat len

/-- `readString(data, offset, 4)` compared as raw bytes: the ascii decoder
is injective from bytes to characters, so comparing the decoded string
with `"MThd"`/`"MTrk"` is the same as comparing these byte values. -/
def readBytes4 (data : List MByte) (offset : ℤ) : List ℕ :=
  let lo := subIdx data.length offset
  let hi := subIdx data.length (offset + 4)
  ((data.drop lo).take (hi - lo)).map Fin.val

def mthdId : List ℕ := [0x4D, 0x54, 0x68, 0x64]

def mtrkId : List ℕ := [0x4D, 0x54, 0x72, 0x6B]

structure VarIntRes where
  value : ℤ
  next : ℤ
deriving DecidableEq, Repr

/-- `readVarInt` (midiImport.js:13-22).  `result = (result << 7) | (byte & 0x7f)`
uses 32-bit ops; the continuation test `(byte & 0x80) === 0` is true for an
`undefined` read (NaN & 0x80 is 0), so the loop also stops at a data-end
read without advancing. -/
def readVarInt (data : List MByte) (offset : ℤ) : VarIntRes :=
  go ((((data.length : ℤ) - offset).toNat) + 1) 0 offset
where
  go : ℕ → ℤ → ℤ → VarIntRes
  | 0, result, position => ⟨result, position⟩
  | fuel + 1, result, position =>
    if position < (data.length : ℤ) then
      let byte := byteAt0 data position
      let result := jsOr (jsShl result 7) (jsAnd byte 0x7f)
      if jsAnd byte 0x80 = 0 then ⟨result, position + 1⟩
      else go fuel result (position + 1)
    else ⟨result, position⟩

/-- One open Note-On (midiImport.js:108): start tick and raw velocity. -/
structure OpenNote where
  start : ℤ
  velocity : ℕ
deriving DecidableEq, Repr

/-- A paired note emitted by the track loop (midiImport.js:114-120).
`note` is the first data byte, `none` when it was read past data end. -/
structure RawMidiNote where
  channel : ℕ
  note : Option ℕ
  start : ℤ
  endTick : ℤ
  velocity : ℕ
deriving DecidableEq, Repr

/-- The per-key open-note table (`openNotes : Map`), an association list
keyed by `(channel, param1)`. -/
abbrev OpenMap := List ((ℕ × Option ℕ) × List OpenNote)

def openLookup (m : OpenMap) (k : ℕ × Option ℕ) : Option (List OpenNote) :=
  match m with
  | [] => none
  | (k', v) :: rest => if k' = k then some v else openLookup rest k

def openSet (m : OpenMap) (k : ℕ × Option ℕ) (v : List OpenNote) : OpenMap :=
  match m with
  | [] => [(k, v)]
  | (k', w) :: rest => if k' = k then (k', v) :: rest else (k', w) :: openSet rest k v

/-- The channel-voice event handler (midiImport.js:103-122): a Note-On with
velocity > 0 pushes onto the per-key stack; a Note-Off (or velocity-0
Note-On) shifts the OLDEST open entry off that stack and emits a note. -/
def noteEvent (eventType channel : ℕ) (param1 param2 : Option ℕ) (tick : ℤ)
    (opens : OpenMap) (notes : List RawMidiNote) : OpenMap × List RawMidiNote :=
  -- `param2 > 0` is false for an undefined `param2` (NaN comparison)
  if eventType = 0x90 ∧ 0 < param2.getD 0 then
    let key := (channel, param1)
    let stack := (openLookup opens key).getD []
    (openSet opens key (stack ++ [⟨tick, param2.getD 0⟩]), notes)
  else if eventType = 0x80 ∨ (eventType = 0x90 ∧ param2 = some 0) then
    let key := (channel, param1)
    match openLookup opens key with
    | some (first :: rest) =>
      (openSet opens key rest,
       notes ++ [⟨channel, param1, first.start, tick, first.velocity⟩])
    | _ => (opens, notes)
  else (opens, notes)

/-- Mutable state of the per-track event loop (midiImport.js:59-123).
`runningStatus` distinguishes `null` (`none`) from a stored value that may
itself be an `undefined` read (`some none`). -/
structure TrackState where
  offset : ℤ
  tick : ℤ
  runningStatus : Option (Option ℕ)
  tempo : ℤ
  opens : OpenMap
  notes : List RawMidiNote
deriving Repr

/-- Set Tempo payload `(data[o] << 16) | (data[o+1] << 8) | data[o+2]`
(midiImport.js:86); bytes < 256 so plain arithmetic matches the JS ops. -/
def readTempo3 (data : List MByte) (offset : ℤ) : ℤ :=
  (byteAt0 data offset) * 65536 + (byteAt0 data (offset + 1)) * 256 +
    byteAt0 data (offset + 2)

/-- The body of the `while (offset < trackEnd)` loop, after the status byte
has been resolved (midiImport.js:80-122).  Returns the continued state. -/
def handleEvent (data : List MByte) (status : Option ℕ) (offset tick : ℤ)
    (st : TrackState) (rs : Option (Option ℕ)) : TrackState :=
  if status = some 0xff then
    let metaType := byteAt data offset
    let offset := offset + 1
    let li := readVarInt data offset
    let len := li.value
    let offset := li.next
    let tempo := if metaType = some 0x51 ∧ len = 3 then readTempo3 data offset else st.tempo
    { st with offset := offset + len, tick := tick, runningStatus := rs, tempo := tempo }
  else if status = some 0xf0 ∨ status = some 0xf7 then
    let li := readVarInt data offset
    { st with offset := li.next + li.value, tick := tick, runningStatus := rs }
  else
    -- `status & 0xf0` / `status & 0x0f`: an undefined status coerces to 0
    let eventType := (status.getD 0) &&& 0xf0
    let channel := (status.getD 0) &&& 0x0f
    let param1 := byteAt data offset
    let offset := offset + 1
    let (param2, offset) :=
      if eventType = 0xc0 ∨ eventType = 0xd0 then ((none : Option ℕ), offset)
      else (byteAt data offset, offset + 1)
    let (opens, notes) := noteEvent eventType channel param1 param2 tick st.opens st.notes
    { st with
        offset := offset
        tick := tick
        runningStatus := rs
        opens := opens
        notes := notes }

/-- The per-track event loop (midiImport.js:64-123).  Fuel bounds the
iteration count; on every input the source terminates on, each iteration
advances `offset` by at least one, so fuel `trackEnd - offset` never runs
out (a malicious negative var-int length can make the JS loop walk
backwards and diverge; the model then stops when the fuel is spent). -/
def trackLoop (data : List MByte) (trackEnd : ℤ) :
    ℕ → TrackState → TrackState
  | 0, st => st
  | fuel + 1, st =>
    if st.offset < trackEnd then
      let d := readVarInt data st.offset
      let tick := st.tick + d.value
      let offset := d.next
      match byteAt data offset with
      | some b =>
        if b < 0x80 then
          match st.runningStatus with
          | none => { st with offset := offset, tick := tick }  -- `break`
          | some rs =>
            trackLoop data trackEnd fuel
              (handleEvent data rs offset tick st (some rs))
        else
          trackLoop data trackEnd fuel
            (handleEvent data (some b) (offset + 1) tick st (some (some b)))
      | none =>
        -- an undefined read is not `< 0x80`, so it takes the status branch
        trackLoop data trackEnd fuel
          (handleEvent data none (offset + 1) tick st (some none))
    else st

structure ParsedTrack where
  notes : List RawMidiNote
deriving DecidableEq, Repr

structure ParsedMidi where
  format : ℕ
  ppq : ℕ
  tempo : ℤ
  tracks : List ParsedTrack
deriving DecidableEq, Repr

/-- The `for (trackIndex ...)` chunk loop of `parseMidi`
(midiImport.js:49-127): check the `MTrk` signature, read the chunk length,
run the event loop, keep only the paired notes, jump to `trackEnd`. -/
def parseTracks (data : List MByte) :
    ℕ → ℤ → ℤ → List ParsedTrack → Except String (List ParsedTrack × ℤ)
  | 0, _, tempo, acc => .ok (acc.reverse, tempo)
  | count + 1, offset, tempo, acc =>
    if readBytes4 data offset ≠ mtrkId then .error "Invalid track header"
    else
      let chunkLength := readUint32 data (offset + 4)
      let trackEnd := offset + 8 + chunkLength
      let start : TrackState :=
        ⟨offset + 8, 0, none, tempo, [], []⟩
      let st := trackLoop data trackEnd ((trackEnd - (offset + 8)).toNat + 1) start
      parseTracks data count trackEnd st.tempo (⟨st.notes⟩ :: acc)

/-- `parseMidi` (midiImport.js:31-130). -/
def parseMidi (data : List MByte) : Except String ParsedMidi :=
  if readBytes4 data 0 ≠ mthdId then .error "Invalid MIDI header"
  else
    let headerLength := readUint32 data 4
    let format := readUint16 data 8
    let trackCount := readUint16 data 10
    let division := readUint16 data 12
    let offset : ℤ := 8 + headerLength
    let ppq := if division &&& 0x8000 ≠ 0 then 480 else division
    match parseTracks data trackCount offset 500000 [] with
    | .error e => .error e
    | .ok (tracks, tempo) => .ok ⟨format, ppq, tempo, tracks⟩

/-! ## midiImport.js — project construction (midiImport.js:132-229) -/

/-- NaN-propagating JS `Math.max` on two numbers. -/
def jsMax2 : Option ℚ → Option ℚ → Option ℚ
  | some a, some b => some (qMax a b)
  | _, _ => none

/-- NaN-propagating JS addition. -/
def jsAddQ : Option ℚ → Option ℚ → Option ℚ
  | some a, some b => some (a + b)
  | _, _ => none

/-- NaN-propagating JS multiplication (finite times finite stays finite:
double overflow is out of the ranges this program produces). -/
def jsMulQ : Option ℚ → Option ℚ → Option ℚ
  | some a, some b => some (a * b)
  | _, _ => none

/-- NaN-propagating JS division; division by zero is non-finite. -/
def jsDivQ : Option ℚ → Option ℚ → Option ℚ
  | some a, some b => if b = 0 then none else some (a / b)
  | _, _ => none

/-- `Math.round`: round half toward positive infinity. -/
def jsRound (q : ℚ) : ℤ := ⌊q + 1/2⌋

/-- The velocity import map (midiImport.js:181 and 206):
`Math.max(0.1, Math.min(1, velocity / 127))`. -/
def importVelocity (v : ℕ) : ℚ := qMax (1/10) (qMin 1 ((v : ℚ) / 127))

/-- `mapDrum` (midiImport.js:24-29); an undefined note number matches no
`===` comparison and falls through to `"perc"`. -/
def mapDrum : Option ℕ → String
  | some 35 => "kick"
  | some 36 => "kick"
  | some 38 => "snare"
  | some 40 => "snare"
  | some 42 => "hat"
  | some 44 => "hat"
  | some 46 => "hat"
  | _ => "perc"

/-- `filename.replace(/\.[^/.]+$/, "")` (midiImport.js:134): strip one
final dot-extension made of one or more characters none of which is a dot
or a slash. -/
def stripExt (s : String) : String :=
  let rev := s.data.reverse
  let ext := rev.takeWhile (fun c => c ≠ '.' ∧ c ≠ '/')
  match rev.drop ext.length with
  | '.' :: rest => if ext.length = 0 then s else String.mk rest.reverse
  | _ => s

/-- First-occurrence-ordered deduplication, the iteration order of the JS
`Set` of channels (midiImport.js:139-150). -/
def dedupFirst (xs : List ℕ) : List ℕ :=
  (xs.foldl (fun acc c => if acc.contains c then acc else acc ++ [c]) [])

/-- A post-parse synth note group (midiImport.js:155-171).  `label` is
carried but never consumed by the source. -/
structure NoteGroup where
  label : String
  notes : List RawMidiNote
deriving DecidableEq, Repr

/-- One synth note conversion (midiImport.js:178-185), also returning the
note's end beat for the running `maxBeat`. -/
def importNote (ppq : ℕ) (n : RawMidiNote) : Note × Option ℚ :=
  let start := jsDivQ (some (n.start : ℚ)) (some (ppq : ℚ))
  let duration := jsMax2 (some (1/20)) (jsDivQ (some ((n.endTick - n.start : ℤ) : ℚ)) (some (ppq : ℚ)))
  let note : Note :=
    { pitch := n.note.map (fun p => (p : ℚ))
      start := start
      duration := duration
      velocity := some (importVelocity n.velocity) }
  (note, jsAddQ start duration)

/-- The synth-note map of one group with the `maxBeat` fold
(midiImport.js:178-185). -/
def importNotes (ppq : ℕ) : List RawMidiNote → Option ℚ → List Note × Option ℚ
  | [], maxBeat => ([], maxBeat)
  | n :: rest, maxBeat =>
    let (note, endBeat) := importNote ppq n
    let maxBeat := jsMax2 maxBeat endBeat
    let (notes, maxBeat) := importNotes ppq rest maxBeat
    (note :: notes, maxBeat)

/-- One drum event conversion (midiImport.js:196-208). -/
def importDrumEvents (ppq : ℕ) : List RawMidiNote → Option ℚ → ℕ →
    List JsVal × Option ℚ × ℕ
  | [], maxBeat, gen => ([], maxBeat, gen)
  | n :: rest, maxBeat, gen =>
    let start := jsDivQ (some (n.start : ℚ)) (some (ppq : ℚ))
    let duration := jsMax2 (some (1/20)) (jsDivQ (some ((n.endTick - n.start : ℤ) : ℚ)) (some (ppq : ℚ)))
    let maxBeat := jsMax2 maxBeat (jsAddQ start duration)
    let (eid, gen) := createId gen
    let ev : JsVal := .obj
      [("id", .str eid),
       ("drum", .str (mapDrum n.note)),
       ("start", .num start),
       ("duration", .num duration),
       ("velocity", .num (some (importVelocity n.velocity)))]
    let (evs, maxBeat, gen) := importDrumEvents ppq rest maxBeat gen
    (ev :: evs, maxBeat, gen)

/-- The synth-track construction loop (midiImport.js:175-188). -/
def buildSynthTracks (ppq : ℕ) : List NoteGroup → ℕ → Option ℚ → ℕ →
    List Track × Option ℚ × ℕ
  | [], _, maxBeat, gen => ([], maxBeat, gen)
  | group :: rest, index, maxBeat, gen =>
    let (track, gen) := createTrack index (some "synth") gen
    let (block, gen) := createBlock 0 4 gen
    let (notes, maxBeat) := importNotes ppq group.notes maxBeat
    let track := { track with blocks := [{ block with notes := notes }] }
    let (tracks, maxBeat, gen) := buildSynthTracks ppq rest (index + 1) maxBeat gen
    (track :: tracks, maxBeat, gen)

/-- The drum-track section of `buildProjectFromMidi`
(midiImport.js:190-212). -/
def buildDrumTrack (ppq : ℕ) (drumNotes : List RawMidiNote)
    (tracks : List Track) (maxBeat : Option ℚ) (gen : ℕ) :
    Except String (List Track × Option ℚ × ℕ) :=
  if drumNotes ≠ [] then
    let (drumTrack, gen) := createTrack tracks.length (some "drums") gen
    let drumTrack := { drumTrack with console := "NES" }
    let rows := getDrumRowsForConsole drumTrack.console
    let (drumBlock, gen) := createBlock 0 4 gen
    match ensureDrumPattern (blockStub drumBlock) rows gen with
    | .error e => .error e
    | .ok (pattern, _, gen) =>
      let (evs, maxBeat, gen) := importDrumEvents ppq drumNotes maxBeat gen
      let pattern := pattern.setF "events" (JsVal.arrL evs)
      let drumTrack := { drumTrack with blocks := [{ drumBlock with pattern := pattern }] }
      .ok (tracks ++ [drumTrack], maxBeat, gen)
  else
    .ok (tracks, maxBeat, gen)

/-- The synth-group selection of `buildProjectFromMidi`
(midiImport.js:136-171). -/
def synthGroupsOf (midi : ParsedMidi) : List NoteGroup :=
  let trackNotes := midi.tracks.map (·.notes)
  let allNotes := trackNotes.flatten
  let channelList := dedupFirst ((allNotes.filter (fun n => n.channel ≠ 9)).map (·.channel))
  if channelList.length > 1 then
    (channelList.map (fun c =>
      (⟨"ch" ++ toString (c + 1), allNotes.filter (fun n => n.channel = c)⟩ : NoteGroup))).filter
      (fun g => g.notes ≠ [])
  else
    ((trackNotes.enum).map (fun p =>
      (⟨"trk" ++ toString (p.1 + 1), p.2.filter (fun n => n.channel ≠ 9)⟩ : NoteGroup))).filter
      (fun g => g.notes ≠ [])

/-- `buildProjectFromMidi` (midiImport.js:132-222). -/
def buildProjectFromMidi (midi : ParsedMidi) (filename : String) (gen : ℕ) :
    Except String (Project × ℕ) :=
  let bpm : ℤ := jsRound (60000000 / ((if midi.tempo = 0 then 500000 else midi.tempo : ℤ) : ℚ))
  let name := if filename ≠ "" then stripExt filename else "Imported MIDI"
  let drumNotes := (midi.tracks.map (·.notes)).flatten.filter (fun n => n.channel = 9)
  let (tracks, maxBeat, gen) := buildSynthTracks midi.ppq (synthGroupsOf midi) 0 (some 4) gen
  match buildDrumTrack midi.ppq drumNotes tracks maxBeat gen with
  | .error e => .error e
  | .ok (tracks, maxBeat, gen) =>
    -- `totalBeats = Math.max(4, Math.ceil(maxBeat / 4) * 4)` applied to every block
    let totalBeats := jsMax2 (some 4)
      (jsMulQ ((jsDivQ maxBeat (some 4)).map (fun q => (⌈q⌉ : ℚ))) (some 4))
    let tracks := tracks.map (fun t =>
      { t with blocks := t.blocks.map (fun b => { b with length := totalBeats }) })
    .ok ({ name := name, bpm := (bpm : ℚ), tracks := tracks }, gen)

/-- `importMidiFile` (midiImport.js:224-229): parse, then build; a parse
error propagates to the caller and no project is produced. -/
def importMidi (data : List MByte) (filename : String) (gen : ℕ) :
    Except String (Project × ℕ) :=
  match parseMidi data with
  | .error e => .error e
  | .ok midi => buildProjectFromMidi midi filename gen

/-! ## audioEngine.js — scheduling (audioEngine.js:8-15, 529-570, 711-795)

The audio-node graph is abstracted to the list of scheduled sound events:
a synthesis voice is represented by its scheduling parameters (frequency,
onset, duration, velocity, stop time); the per-(console, waveform) signal
chain construction (audioEngine.js:351-527) never rejects a note (its
`try`/`catch` falls back to a plain square oscillator), so it does not
affect which notes get scheduled.  Gain-node plumbing (`createTrackOutput`,
`trackGains` cache) creates mixing nodes but touches no Project data. -/

/-- `DEFAULT_ADSR.release` (audioEngine.js:8-13). -/
def DEFAULT_ADSR_release : ℚ := 2/25

/-- `midiToFrequency` (audioEngine.js:15): `440 * Math.pow(2, (midi - 69) / 12)`.
The real value `440·2^((m-69)/12)` is represented exactly by its exponent
`(m - 69)/12`, of which it is a strictly monotone injective function; the
result is non-finite exactly when the input is (double overflow would need
a pitch above ~12000, far outside anything this program produces, and is
conflated with the finite case). -/
def midiToFrequency (midi : Option ℚ) : Option ℚ :=
  midi.map (fun m => (m - 69) / 12)

/-- A scheduled synthesis voice: the observable parameters of the node
chain built by `scheduleSynthNote` (audioEngine.js:542-569). -/
structure Voice where
  freqExp : ℚ
  startTime : ℚ
  duration : ℚ
  velocity : ℚ
  stopTime : ℚ
deriving DecidableEq, Repr

/-- `scheduleSynthNote` (audioEngine.js:529-570).  `none` means the note
was skipped before any gain node or oscillator was created. -/
def scheduleSynthNote (track : Track) (note : Note)
    (startTime duration : Option ℚ) : Option Voice :=
  let midi := jsAddQ note.pitch (some (track.octave * 12))
  let frequency := midiToFrequency midi
  match frequency with
  | none => none
  | some f =>
    match startTime, duration with
    | some st, some d =>
      if d ≤ 0 then none
      else
        let velocity := note.velocity.getD (9/10)
        if velocity ≤ 0 then none
        else some ⟨f, st, d, velocity, st + d + DEFAULT_ADSR_release + 1/10⟩
    | _, _ => none

/-- The note loop of a synth block inside `scheduleProject`
(audioEngine.js:785-789). -/
def scheduleBlockNotes (track : Track) (block : Block) (spb : Option ℚ)
    (startTime : ℚ) : List Voice :=
  block.notes.filterMap (fun note =>
    scheduleSynthNote track note
      (jsAddQ (some startTime) (jsMulQ (jsAddQ (some block.startBeat) note.start) spb))
      (jsMulQ note.duration spb))

/-- A scheduled sound event. -/
inductive AudioEvent where
  | synthVoice (v : Voice)
  | drumHit (drum : String) (time : Option ℚ) (level : ℚ) (duration : Option ℚ)
deriving DecidableEq, Repr

/-- `Array.isArray(block.pattern?.rows) ? block.pattern.rows :
DEFAULT_DRUM_ROWS` (audioEngine.js:712). -/
def patRows (pattern : JsVal) : List String :=
  match (pattern.getF "rows").asArray with
  | some es => es.map rowStr
  | none => DEFAULT_DRUM_ROWS

/-- `scheduleDrumPattern` (audioEngine.js:711-721): re-ensure the pattern
against its own current rows (falling back to `DEFAULT_DRUM_ROWS`), then
emit one hit per event.  The returned block carries the in-place
`block.pattern` replacement performed by `ensureDrumPattern`. -/
def scheduleDrumPattern (block : Block) (spb : Option ℚ) (startOffset : ℚ)
    (gen : ℕ) : Except String (List AudioEvent × Block × ℕ) := do
  let rows := patRows block.pattern
  let (pattern, _, gen) ← ensureDrumPattern (blockStub block) rows gen
  let events := ((pattern.getF "events").asArray).getD []
  let hits := events.map (fun e =>
    let drum := rowStr (e.getF "drum")
    let time := jsAddQ (some startOffset)
      (jsMulQ (jsAddQ (some block.startBeat) ((e.getF "start").asFinite)) spb)
    let volume := (((pattern.getF "volumes").getF drum).asFinite).getD (9/10)
    let durRaw : Option ℚ :=
      if (e.getF "duration").truthy then (e.getF "duration").asFinite else some (1/4)
    let duration := jsMulQ (jsMax2 (some (1/20)) durRaw) spb
    AudioEvent.drumHit drum time volume duration)
  return (hits, { block with pattern := pattern }, gen)

/-- Scheduling options (audioEngine.js:756-762).  The `master` destination
and the `trackGains` node cache configure the mixing graph only; they do
not influence which events are scheduled or how the project is mutated. -/
structure SchedOpts where
  startTime : ℚ := 0
  ignoreMuteSolo : Bool := false
deriving DecidableEq, Repr

/-- The block loop of one track (audioEngine.js:783-793). -/
def scheduleTrackBlocks (track : Track) (spb : Option ℚ) (startTime : ℚ) :
    List Block → ℕ → Except String (List AudioEvent × List Block × ℕ)
  | [], gen => return ([], [], gen)
  | block :: rest, gen => do
    let (evs, block', gen) ←
      if track.type = "synth" then
        pure ((scheduleBlockNotes track block spb startTime).map AudioEvent.synthVoice,
          block, gen)
      else
        scheduleDrumPattern block spb startTime gen
    let (evsRest, rest', gen) ← scheduleTrackBlocks track spb startTime rest gen
    return (evs ++ evsRest, block' :: rest', gen)

/-- The mute/solo exclusion test (audioEngine.js:767-770). -/
def skipTrack (ignoreMuteSolo soloActive : Bool) (track : Track) : Bool :=
  !ignoreMuteSolo && (track.mute || (soloActive && !track.solo))

/-- The track loop of `scheduleProject` (audioEngine.js:766-794). -/
def scheduleTracks (spb : Option ℚ) (startTime : ℚ) (soloActive : Bool)
    (ignoreMuteSolo : Bool) :
    List Track → ℕ → Except String (List AudioEvent × List Track × ℕ)
  | [], gen => return ([], [], gen)
  | track :: rest, gen => do
    let (evs, track', gen) ←
      if skipTrack ignoreMuteSolo soloActive track then
        pure (([] : List AudioEvent), track, gen)
      else do
        let (evs, blocks', gen) ← scheduleTrackBlocks track spb startTime track.blocks gen
        pure (evs, { track with blocks := blocks' }, gen)
    let (evsRest, rest', gen) ← scheduleTracks spb startTime soloActive ignoreMuteSolo rest gen
    return (evs ++ evsRest, track' :: rest', gen)

/-- `scheduleProject` (audioEngine.js:756-795).  Returns the scheduled
events together with the post-call state of the project (the source
mutates drum blocks in place through `ensureDrumPattern`). -/
def scheduleProject (project : Project) (opts : SchedOpts) (gen : ℕ) :
    Except String (List AudioEvent × Project × ℕ) := do
  let spb := jsDivQ (some 60) (some project.bpm)
  let soloActive := project.tracks.any (·.solo)
  let (evs, tracks', gen) ←
    scheduleTracks spb opts.startTime soloActive opts.ignoreMuteSolo project.tracks gen
  return (evs, { project with tracks := tracks' }, gen)

/-! ## Concrete instances used by the theorems -/

/-- Modelled from the spec: the affine "linear map of the raw MIDI velocity
from [0,127] onto [0.1,1.0]" that the specification describes (0 ↦ 0.1,
127 ↦ 1.0, linear in between), stated for comparison with the code's
`importVelocity`. -/
def specLinearVelocity (v : ℕ) : ℚ := 1/10 + (9/10) * ((v : ℚ) / 127)

/-- A project whose drum block carries `pattern: {events: 5}` — well-formed
JSON, but `events` is a truthy non-array. -/
def rawEventsNotArray : JsVal :=
  .obj [("tracks", JsVal.arrL
    [.obj [("type", .str "drums"),
           ("blocks", JsVal.arrL
             [.obj [("pattern", .obj [("events", .num (some 5))])]])]])]

/-- A format-0 file, 480 ticks per quarter, one track containing two
overlapping Note-Ons on channel 0 pitch 60 (ticks 0 and 10, velocities 100
and 90) followed by two Note-Offs (ticks 20 and 30). -/
def overlapMidiBytes : List MByte :=
  [0x4D, 0x54, 0x68, 0x64, 0, 0, 0, 6, 0, 0, 0, 1, 0x01, 0xE0,
   0x4D, 0x54, 0x72, 0x6B, 0, 0, 0, 16,
   0x00, 0x90, 0x3C, 0x64,
   0x0A, 0x90, 0x3C, 0x5A,
   0x0A, 0x80, 0x3C, 0x00,
   0x0A, 0x80, 0x3C, 0x00]

/-- One track: a Note-On for pitch 60 that is never closed, then a matched
Note-On/Note-Off pair for pitch 62 (ticks 5 and 15, velocity 80). -/
def unmatchedMidiBytes : List MByte :=
  [0x4D, 0x54, 0x68, 0x64, 0, 0, 0, 6, 0, 0, 0, 1, 0x01, 0xE0,
   0x4D, 0x54, 0x72, 0x6B, 0, 0, 0, 12,
   0x00, 0x90, 0x3C, 0x64,
   0x05, 0x90, 0x3E, 0x50,
   0x0A, 0x80, 0x3E, 0x00]

/-- One note of raw velocity 63 lasting one quarter (480 ticks at
ppq 480), closed by a velocity-0 Note-On. -/
def velocity63Bytes : List MByte :=
  [0x4D, 0x54, 0x68, 0x64, 0, 0, 0, 6, 0, 0, 0, 1, 0x01, 0xE0,
   0x4D, 0x54, 0x72, 0x6B, 0, 0, 0, 9,
   0x00, 0x90, 0x3C, 0x3F,
   0x83, 0x60, 0x90, 0x3C, 0x00]

/-- A file whose only event is Set Tempo 100000 µs per quarter. -/
def tempo100000Bytes : List MByte :=
  [0x4D, 0x54, 0x68, 0x64, 0, 0, 0, 6, 0, 0, 0, 1, 0x01, 0xE0,
   0x4D, 0x54, 0x72, 0x6B, 0, 0, 0, 7,
   0x00, 0xFF, 0x51, 0x03, 0x01, 0x86, 0xA0]

/-- Two Set Tempo events: 500000 µs then 1000000 µs (the last wins). -/
def twoTempoBytes : List MByte :=
  [0x4D, 0x54, 0x68, 0x64, 0, 0, 0, 6, 0, 0, 0, 1, 0x01, 0xE0,
   0x4D, 0x54, 0x72, 0x6B, 0, 0, 0, 14,
   0x00, 0xFF, 0x51, 0x03, 0x07, 0xA1, 0x20,
   0x00, 0xFF, 0x51, 0x03, 0x0F, 0x42, 0x40]

/-- A drum block (as the JS object `ensureDrumPattern` receives) with one
valid kick event. -/
def oneKickBlock : JsVal :=
  .obj [("length", .num (some 4)),
        ("pattern", .obj [("events", JsVal.arrL
          [.obj [("id", .str "e1"), ("drum", .str "kick"),
                 ("start", .num (some 0)), ("duration", .num (some 1)),
                 ("velocity", .num (some (1/2)))]])])]

/-- The pattern `ensureDrumPattern oneKickBlock ["kick"]` materializes. -/
def oneKickPattern : JsVal :=
  .obj [("events", JsVal.arrL
          [.obj [("id", .str "e1"), ("drum", .str "kick"),
                 ("start", .num (some 0)), ("duration", .num (some 1)),
                 ("velocity", .num (some (1/2)))]]),
        ("rows", JsVal.arrL [.str "kick"]),
        ("volumes", .obj [("kick", .num (some (9/10)))])]

/-- `oneKickBlock` after the call (its `pattern` replaced in place). -/
def oneKickBlockAfter : JsVal :=
  .obj [("length", .num (some 4)), ("pattern", oneKickPattern)]

/-- A small live project: one drum track with a raw (never-ensured) block. -/
def demoDrumProject : Project :=
  { name := "demo", bpm := 120,
    tracks := [{ id := "t1", type := "drums", console := "NES",
                 waveform := "noise", volume := 4/5, pan := 0, octave := 0,
                 mute := false, solo := false,
                 blocks := [{ id := "b1", startBeat := 0, length := some 4,
                              notes := [], pattern := JsVal.arrL [] }] }] }

/-- The state of `demoDrumProject` after one scheduling pass: the drum
block's raw array pattern has been materialized in place. -/
def demoProjectAfter : Project :=
  { name := "demo", bpm := 120,
    tracks := [{ id := "t1", type := "drums", console := "NES",
                 waveform := "noise", volume := 4/5, pan := 0, octave := 0,
                 mute := false, solo := false,
                 blocks := [{ id := "b1", startBeat := 0, length := some 4,
                              notes := [],
                              pattern := .arr []
                                [("events", JsVal.arrL []),
                                 ("rows", JsVal.arrL (DEFAULT_DRUM_ROWS.map JsVal.str)),
                                 ("volumes", .obj
                                   [("kick", .num (some (9/10))),
                                    ("snare", .num (some (9/10))),
                                    ("hat", .num (some (9/10))),
                                    ("perc", .num (some (9/10)))])] }] }] }

/-- The result state of scheduling `demoDrumProject`. -/
def demoSchedResult : List AudioEvent × Project × ℕ :=
  match scheduleProject demoDrumProject ⟨0, false⟩ 0 with
  | .ok r => r
  | .error _ => ([], demoDrumProject, 0)

/-- Statement predicate for the scheduling frame property: `b'` is `b` with
only its `pattern` field replaced, and the new pattern is one materialized
by running `ensureDrumPattern` on `b` itself (at some id-counter state)
against the pattern's own rows. -/
def drumBlockUpdated (b b' : Block) : Prop :=
  ∃ P b2 g1 g2,
    ensureDrumPattern (blockStub b) (patRows b.pattern) g1 = .ok (P, b2, g2)
    ∧ b' = { b with pattern := P }

/-- Statement predicate for the scheduling frame property: a muted/solo-
skipped track and a synth track come back unchanged from `scheduleProject`;
a scheduled drum track changes only by replacing each block's `pattern` as
described by `drumBlockUpdated`. -/
def trackScheduledRel (ims soloActive : Bool) (t t' : Track) : Prop :=
  if skipTrack ims soloActive t = true ∨ t.type = "synth" then t' = t
  else ∃ blocks', t' = { t with blocks := blocks' }
    ∧ List.Forall₂ drumBlockUpdated t.blocks blocks'

/-- The pattern `ensureDrumPattern` materializes for a block whose `pattern`
is not object-like (the run starts from `{}`): written to mirror the
computation step for step, so the equation is definitional. -/
def emptyPatternNormalized (rows : List String) : JsVal :=
  let effRows := if rows ≠ [] then rows else DEFAULT_DRUM_ROWS
  let pat2 := ((JsVal.obj []).setF "events" (JsVal.arrL [])).setF "rows"
    (JsVal.arrL (effRows.map JsVal.str))
  ensureVolumes (pat2.setF "events" (JsVal.arrL [])) effRows

/-! ## Theorems -/

/-- **C1** (code_bug evidence).  `normalizeProject` is documented to accept
arbitrary malformed input and always return a structurally valid Project,
and it does clamp `bpm` as claimed (9999 ↦ 240, -5 ↦ 40, non-numeric ↦
120); but on a drum block whose `pattern.events` is a truthy non-array
(here the number 5) it throws a `TypeError` from
`pattern.events.filter(...)` instead of normalizing, so it does not return
a Project at all on that input. -/
theorem normalizeProject_not_total :
    normalizeProject rawEventsNotArray 0 =
      .error "TypeError: pattern.events.filter is not a function" ∧
    (normalizeProject (.obj [("bpm", .num (some 9999))]) 0).map
      (fun r => r.1.bpm) = .ok 240 ∧
    (normalizeProject (.obj [("bpm", .num (some (-5)))]) 0).map
      (fun r => r.1.bpm) = .ok 40 ∧
    (normalizeProject (.obj [("bpm", .str "fast")]) 0).map
      (fun r => r.1.bpm) = .ok 120 := by
  refine ⟨rfl, rfl, rfl, rfl⟩

/-- **C3**.  A byte stream that does not begin with `"MThd"` makes
`parseMidi` fail with the header format error; a track chunk that does not
begin with `"MTrk"` (at the point the chunk loop reaches it, for any number
of remaining chunks) fails with the track format error; and any `parseMidi`
failure propagates out of the import call unchanged, so no partial Project
is ever produced. -/
theorem midi_format_errors :
    (∀ data : List MByte, readBytes4 data 0 ≠ mthdId →
        parseMidi data = .error "Invalid MIDI header")
    ∧ (∀ (data : List MByte) (count : ℕ) (offset tempo : ℤ)
          (acc : List ParsedTrack), readBytes4 data offset ≠ mtrkId →
        parseTracks data (count + 1) offset tempo acc =
          .error "Invalid track header")
    ∧ (∀ (data : List MByte) (filename : String) (gen : ℕ) (e : String),
        parseMidi data = .error e →
        importMidi data filename gen = .error e) := by
  refine ⟨?_, ?_, ?_⟩
  · intro data h
    simp [parseMidi, h]
  · intro data count offset tempo acc h
    simp [parseTracks, h]
  · intro data filename gen e h
    simp [importMidi, h]

/-- Witness for `midi_format_errors` at concrete inputs. -/
theorem midi_format_errors_witness :
    parseMidi [0x00, 0x01] = .error "Invalid MIDI header" ∧
    parseTracks [] 1 0 500000 [] = .error "Invalid track header" ∧
    importMidi [0x00, 0x01] "song.mid" 0 = .error "Invalid MIDI header" :=
  ⟨midi_format_errors.1 [0x00, 0x01] (by decide),
   midi_format_errors.2.1 [] 0 0 500000 [] (by decide),
   midi_format_errors.2.2 [0x00, 0x01] "song.mid" 0 _
     (midi_format_errors.1 [0x00, 0x01] (by decide))⟩

theorem openLookup_openSet_self (m : OpenMap) (k : ℕ × Option ℕ)
    (v : List OpenNote) : openLookup (openSet m k v) k = some v := by
  induction m with
  | nil => simp [openSet, openLookup]
  | cons hd tl ih =>
    obtain ⟨k', w⟩ := hd
    by_cases h : k' = k
    · simp [openSet, openLookup, h]
    · simp [openSet, openLookup, h, ih]

theorem openSet_openSet (m : OpenMap) (k : ℕ × Option ℕ)
    (v w : List OpenNote) : openSet (openSet m k v) k w = openSet m k w := by
  induction m with
  | nil => simp [openSet]
  | cons hd tl ih =>
    obtain ⟨k', u⟩ := hd
    by_cases h : k' = k
    · simp [openSet, h]
    · simp [openSet, h, ih]

/-- **C4 (amended)**.  Overlapping same-pitch notes are kept on a per-
(channel, pitch) queue and closed FIRST-opened-first: with no note open for
the key, two Note-Ons at ticks `t1 < t2` followed by two closing events
(Note-Off, or velocity-0 Note-On) at ticks `t3 < t4` emit the pairs
`(start t1, end t3)` and `(start t2, end t4)` — not the last-opened-first
pairing the original claim states. -/
theorem midi_overlap_pairing (ch : ℕ) (p : Option ℕ) (v1 v2 : ℕ)
    (t1 t2 t3 t4 : ℤ) (e3 e4 : ℕ) (q3 q4 : Option ℕ) (opens : OpenMap)
    (notes : List RawMidiNote)
    (hopen : openLookup opens (ch, p) = none ∨
             openLookup opens (ch, p) = some [])
    (hv1 : 0 < v1) (hv2 : 0 < v2)
    (ht12 : t1 < t2) (ht23 : t2 ≤ t3) (ht34 : t3 < t4)
    (hc3 : e3 = 0x80 ∨ (e3 = 0x90 ∧ q3 = some 0))
    (hc4 : e4 = 0x80 ∨ (e4 = 0x90 ∧ q4 = some 0)) :
    (let s1 := noteEvent 0x90 ch p (some v1) t1 opens notes
     let s2 := noteEvent 0x90 ch p (some v2) t2 s1.1 s1.2
     let s3 := noteEvent e3 ch p q3 t3 s2.1 s2.2
     let s4 := noteEvent e4 ch p q4 t4 s3.1 s3.2
     s4.2 = notes ++ [⟨ch, p, t1, t3, v1⟩, ⟨ch, p, t2, t4, v2⟩]) := by
  have stack0 : (openLookup opens (ch, p)).getD [] = [] := by
    rcases hopen with h | h <;> simp [h]
  have h1 : noteEvent 0x90 ch p (some v1) t1 opens notes =
      (openSet opens (ch, p) [⟨t1, v1⟩], notes) := by
    simp [noteEvent, hv1, stack0]
  have h2 : noteEvent 0x90 ch p (some v2) t2 (openSet opens (ch, p) [⟨t1, v1⟩]) notes =
      (openSet opens (ch, p) [⟨t1, v1⟩, ⟨t2, v2⟩], notes) := by
    simp [noteEvent, hv2, openLookup_openSet_self, openSet_openSet]
  have notOpen3 : ¬(e3 = 0x90 ∧ 0 < q3.getD 0) := by
    rcases hc3 with h | ⟨h, h'⟩
    · simp [h]
    · simp [h, h']
  have close3 : e3 = 0x80 ∨ (e3 = 0x90 ∧ q3 = some 0) := hc3
  have h3 : noteEvent e3 ch p q3 t3 (openSet opens (ch, p) [⟨t1, v1⟩, ⟨t2, v2⟩]) notes =
      (openSet opens (ch, p) [⟨t2, v2⟩], notes ++ [⟨ch, p, t1, t3, v1⟩]) := by
    rw [noteEvent, if_neg notOpen3, if_pos close3]
    simp only [openLookup_openSet_self, openSet_openSet]
  have notOpen4 : ¬(e4 = 0x90 ∧ 0 < q4.getD 0) := by
    rcases hc4 with h | ⟨h, h'⟩
    · simp [h]
    · simp [h, h']
  have close4 : e4 = 0x80 ∨ (e4 = 0x90 ∧ q4 = some 0) := hc4
  have h4 : noteEvent e4 ch p q4 t4 (openSet opens (ch, p) [⟨t2, v2⟩])
      (notes ++ [⟨ch, p, t1, t3, v1⟩]) =
      (openSet opens (ch, p) [], notes ++ [⟨ch, p, t1, t3, v1⟩] ++ [⟨ch, p, t2, t4, v2⟩]) := by
    rw [noteEvent, if_neg notOpen4, if_pos close4]
    simp only [openLookup_openSet_self, openSet_openSet]
  simp only [h1, h2, h3, h4, List.append_assoc, List.singleton_append]

/-- Witness for `midi_overlap_pairing` at concrete ticks and velocities. -/
theorem midi_overlap_pairing_witness :
    (let s1 := noteEvent 0x90 0 (some 60) (some 100) 0 [] []
     let s2 := noteEvent 0x90 0 (some 60) (some 90) 10 s1.1 s1.2
     let s3 := noteEvent 0x80 0 (some 60) (some 0) 20 s2.1 s2.2
     let s4 := noteEvent 0x90 0 (some 60) (some 0) 30 s3.1 s3.2
     s4.2 = [⟨0, some 60, 0, 20, 100⟩, ⟨0, some 60, 10, 30, 90⟩]) :=
  midi_overlap_pairing 0 (some 60) 100 90 0 10 20 30 0x80 0x90
    (some 0) (some 0) [] [] (Or.inl rfl) (by decide) (by decide)
    (by decide) (by decide) (by decide) (Or.inl rfl) (Or.inr ⟨rfl, rfl⟩)

/-- **C4 (counterexample)**.  On a concrete file with two overlapping
Note-Ons (ticks 0 and 10) and two closes (ticks 20 and 30) for channel 0
pitch 60, the parser emits the pairs (0,20) and (10,30) — first-opened-
first-closed — not the claimed last-opened-first pairing (10,20)/(0,30). -/
theorem midi_overlap_pairing_cex :
    (parseMidi overlapMidiBytes).map (fun m => m.tracks.map (·.notes)) =
      .ok [[⟨0, some 60, 0, 20, 100⟩, ⟨0, some 60, 10, 30, 90⟩]] ∧
    ([[(⟨0, some 60, 0, 20, 100⟩ : RawMidiNote), ⟨0, some 60, 10, 30, 90⟩]]
        : List (List RawMidiNote)) ≠
      [[⟨0, some 60, 10, 20, 90⟩, ⟨0, some 60, 0, 30, 100⟩]] := by
  exact ⟨by rfl, by decide⟩

/-- **C10**.  A Note-On never emits a note by itself, a closing event with
no open note for its key emits nothing, and — end to end on a concrete
chunk — a Note-On (pitch 60) left unmatched at chunk end contributes no
note at all to the parse result (it is discarded, not truncated to the
chunk's final tick): only the matched pitch-62 pair appears. -/
theorem midi_unmatched_noteon_discarded :
    (∀ (ch : ℕ) (p1 : Option ℕ) (v : ℕ) (tick : ℤ) (opens : OpenMap)
        (notes : List RawMidiNote), 0 < v →
        (noteEvent 0x90 ch p1 (some v) tick opens notes).2 = notes)
    ∧ (∀ (et ch : ℕ) (p1 q : Option ℕ) (tick : ℤ) (opens : OpenMap)
          (notes : List RawMidiNote),
        (openLookup opens (ch, p1) = none ∨
         openLookup opens (ch, p1) = some []) →
        (noteEvent et ch p1 q tick opens notes).2 = notes)
    ∧ (parseMidi unmatchedMidiBytes).map (fun m => m.tracks.map (·.notes)) =
        .ok [[⟨0, some 62, 5, 15, 80⟩]] := by
  refine ⟨?_, ?_, by rfl⟩
  · intro ch p1 v tick opens notes hv
    simp [noteEvent, hv]
  · intro et ch p1 q tick opens notes hopen
    rw [noteEvent]
    by_cases hOpen : et = 0x90 ∧ 0 < q.getD 0
    · rw [if_pos hOpen]
    · rw [if_neg hOpen]
      by_cases hClose : et = 0x80 ∨ (et = 0x90 ∧ q = some 0)
      · rw [if_pos hClose]
        rcases hopen with h | h <;> simp [h]
      · rw [if_neg hClose]

/-- Witness for `midi_unmatched_noteon_discarded` at concrete events. -/
theorem midi_unmatched_noteon_discarded_witness :
    (noteEvent 0x90 0 (some 60) (some 100) 5 [] []).2 = ([] : List RawMidiNote) ∧
    (noteEvent 0x80 3 (some 61) (some 0) 7 [] []).2 = ([] : List RawMidiNote) :=
  ⟨midi_unmatched_noteon_discarded.1 0 (some 60) 100 5 [] [] (by decide),
   midi_unmatched_noteon_discarded.2.1 0x80 3 (some 61) (some 0) 7 [] []
     (Or.inl rfl)⟩

theorem importNotes_velocity {ppq : ℕ} :
    ∀ (ns : List RawMidiNote) (mb : Option ℚ) (out : List Note) (mb' : Option ℚ),
      importNotes ppq ns mb = (out, mb') →
      ∀ n ∈ out, ∃ v : ℕ, n.velocity = some (importVelocity v) := by
  intro ns
  induction ns with
  | nil =>
    intro mb out mb' h n hn
    rw [importNotes] at h
    simp only [Prod.mk.injEq] at h
    rcases h with ⟨rfl, rfl⟩
    simp at hn
  | cons a rest ih =>
    intro mb out mb' h n hn
    rw [importNotes] at h
    rcases hni : importNote ppq a with ⟨note, endBeat⟩
    rw [hni] at h
    dsimp only at h
    rcases hr : importNotes ppq rest (jsMax2 mb endBeat) with ⟨out', mb''⟩
    rw [hr] at h
    simp only [Prod.mk.injEq] at h
    rcases h with ⟨rfl, rfl⟩
    cases hn with
    | head =>
      refine ⟨a.velocity, ?_⟩
      have h1 := congrArg Prod.fst hni
      dsimp at h1
      rw [← h1]
      simp [importNote]
    | tail _ hn => exact ih _ _ _ hr _ hn

theorem buildSynthTracks_velocity {ppq : ℕ} :
    ∀ (groups : List NoteGroup) (idx : ℕ) (mb : Option ℚ) (g : ℕ)
      (tr : List Track) (mb' : Option ℚ) (g' : ℕ),
      buildSynthTracks ppq groups idx mb g = (tr, mb', g') →
      ∀ t ∈ tr, ∀ b ∈ t.blocks, ∀ n ∈ b.notes,
        ∃ v : ℕ, n.velocity = some (importVelocity v) := by
  intro groups
  induction groups with
  | nil =>
    intro idx mb g tr mb' g' h t ht
    rw [buildSynthTracks] at h
    simp only [Prod.mk.injEq] at h
    rcases h with ⟨rfl, rfl, rfl⟩
    simp at ht
  | cons grp rest ih =>
    intro idx mb g tr mb' g' h t ht b hb n hn
    rw [buildSynthTracks] at h
    rcases hct : createTrack idx (some "synth") g with ⟨track0, g1⟩
    rw [hct] at h
    dsimp only at h
    rcases hcb : createBlock 0 4 g1 with ⟨block0, g2⟩
    rw [hcb] at h
    dsimp only at h
    rcases hnotes : importNotes ppq grp.notes mb with ⟨notes, mb1⟩
    rw [hnotes] at h
    dsimp only at h
    rcases hrest : buildSynthTracks ppq rest (idx + 1) mb1 g2 with ⟨tr1, mb2, g3⟩
    rw [hrest] at h
    dsimp only at h
    simp only [Prod.mk.injEq] at h
    rcases h with ⟨rfl, rfl, rfl⟩
    cases ht with
    | head =>
      dsimp only at hb
      rw [List.mem_singleton] at hb
      subst hb
      exact importNotes_velocity _ _ _ _ hnotes n hn
    | tail _ ht => exact ih _ _ _ _ _ _ hrest _ ht b hb n hn

theorem buildDrumTrack_tracks {ppq : ℕ} {dn : List RawMidiNote}
    {tracks : List Track} {mb : Option ℚ} {g : ℕ} {tr2 : List Track}
    {mb2 : Option ℚ} {g2 : ℕ}
    (h : buildDrumTrack ppq dn tracks mb g = .ok (tr2, mb2, g2)) :
    ∀ t ∈ tr2, t ∈ tracks ∨ ∀ b ∈ t.blocks, b.notes = [] := by
  rw [buildDrumTrack] at h
  by_cases hdn : dn ≠ []
  · rw [if_pos hdn] at h
    rcases hct : createTrack tracks.length (some "drums") g with ⟨track0, g1⟩
    rw [hct] at h
    dsimp only at h
    rcases hcb : createBlock 0 4 g1 with ⟨block0, g2'⟩
    rw [hcb] at h
    dsimp only at h
    have hbn : block0.notes = [] := by
      have h0 := congrArg (fun p => p.1.notes) hcb
      dsimp at h0
      rw [← h0]
      simp [createBlock, createId]
    rcases hens : ensureDrumPattern
        (blockStub { block0 with id := block0.id })
        (getDrumRowsForConsole "NES") g2' with e | ⟨pat, restPart, g3⟩
    · rw [show (blockStub block0) = blockStub { block0 with id := block0.id } from rfl] at h
      rw [hens] at h
      simp at h
    · rw [show (blockStub block0) = blockStub { block0 with id := block0.id } from rfl] at h
      rw [hens] at h
      dsimp only at h
      rcases hide : importDrumEvents ppq dn mb g3 with ⟨evs, mb3, g4⟩
      rw [hide] at h
      dsimp only at h
      simp only [Except.ok.injEq, Prod.mk.injEq] at h
      rcases h with ⟨rfl, rfl, rfl⟩
      intro t ht
      rcases List.mem_append.mp ht with ht | ht
      · exact Or.inl ht
      · right
        rw [List.mem_singleton] at ht
        subst ht
        intro b hb
        dsimp only at hb
        rw [List.mem_singleton] at hb
        subst hb
        exact hbn
  · rw [if_neg hdn] at h
    simp only [Except.ok.injEq, Prod.mk.injEq] at h
    rcases h with ⟨rfl, rfl, rfl⟩
    intro t ht
    exact Or.inl ht

/-- **C5 (amended)**.  Every synth note produced by the MIDI importer has
velocity `max(0.1, min(1, raw/127))` — the raw velocity scaled by 1/127 and
clamped into [0.1, 1], with 0 ↦ 0.1, 127 ↦ 1 and 100 ↦ 100/127 ≈ 0.787 (the
spec's ≈0.79) — not the affine map of [0,127] onto [0.1,1.0] the original
claim describes. -/
theorem import_velocity_clamped :
    (∀ (midi : ParsedMidi) (filename : String) (gen : ℕ) (p : Project) (g : ℕ),
        buildProjectFromMidi midi filename gen = .ok (p, g) →
        ∀ t ∈ p.tracks, ∀ b ∈ t.blocks, ∀ n ∈ b.notes,
          ∃ v : ℕ, n.velocity = some (importVelocity v))
    ∧ importVelocity 0 = 1/10 ∧ importVelocity 127 = 1
    ∧ importVelocity 100 = 100/127 := by
  refine ⟨?_, by decide, by decide, by decide⟩
  intro midi filename gen p g h t ht b hb n hn
  rw [buildProjectFromMidi] at h
  rcases hbs : buildSynthTracks midi.ppq (synthGroupsOf midi) 0 (some 4) gen
      with ⟨tr1, mb1, g1⟩
  rw [hbs] at h
  dsimp only at h
  rcases hbd : buildDrumTrack midi.ppq
      ((midi.tracks.map (·.notes)).flatten.filter (fun n => n.channel = 9))
      tr1 mb1 g1 with e | ⟨tr2, mb2, g2⟩
  · rw [hbd] at h
    simp at h
  · rw [hbd] at h
    dsimp only at h
    simp only [Except.ok.injEq, Prod.mk.injEq] at h
    rcases h with ⟨rfl, rfl⟩
    dsimp only at ht
    rw [List.mem_map] at ht
    rcases ht with ⟨t0, ht0, rfl⟩
    dsimp only at hb
    rw [List.mem_map] at hb
    rcases hb with ⟨b0, hb0, rfl⟩
    dsimp only at hn
    rcases buildDrumTrack_tracks hbd t0 ht0 with hsyn | hdrum
    · exact buildSynthTracks_velocity _ _ _ _ _ _ _ hbs t0 hsyn b0 hb0 n hn
    · rw [hdrum b0 hb0] at hn
      simp at hn

/-- Witness for `import_velocity_clamped` on a concrete import: the single
note of a one-note file (raw velocity 63) has an `importVelocity` image as
its velocity. -/
theorem import_velocity_clamped_witness :
    ∃ v : ℕ, (some ((63 : ℚ)/127) : Option ℚ) = some (importVelocity v) :=
  import_velocity_clamped.1 ⟨0, 480, 500000, [⟨[⟨0, some 60, 0, 480, 63⟩]⟩]⟩
    "x.mid" 0
    ⟨"x", 120, [⟨"id0", "synth", "NES", "pulse25", 4/5, 0, 0, false, false,
      [⟨"id1", 0, some 4, [⟨some 60, some 0, some 1, some ((63 : ℚ)/127)⟩],
        JsVal.arrL []⟩]⟩]⟩ 2 rfl
    ⟨"id0", "synth", "NES", "pulse25", 4/5, 0, 0, false, false,
      [⟨"id1", 0, some 4, [⟨some 60, some 0, some 1, some ((63 : ℚ)/127)⟩],
        JsVal.arrL []⟩]⟩ (by simp)
    ⟨"id1", 0, some 4, [⟨some 60, some 0, some 1, some ((63 : ℚ)/127)⟩],
      JsVal.arrL []⟩ (by simp)
    ⟨some 60, some 0, some 1, some ((63 : ℚ)/127)⟩ (by simp)

/-- **C5 (counterexample)**.  Importing a note of raw velocity 63 yields
velocity 63/127 ≈ 0.496, while the claimed affine map onto [0.1, 1.0]
would give 0.1 + 0.9·63/127 ≈ 0.546; the two disagree. -/
theorem import_velocity_not_affine :
    (importMidi velocity63Bytes "x.mid" 0).map
        (fun r => r.1.tracks.map (fun t => t.blocks.map
          (fun b => b.notes.map (·.velocity)))) =
      .ok [[[some ((63 : ℚ)/127)]]] ∧
    ((63 : ℚ)/127) ≠ specLinearVelocity 63 := by
  exact ⟨by rfl, by decide⟩

/-- **C6 (amended)**.  The imported Project's bpm is
`Math.round(60,000,000 / tempo)` with tempo the last Set Tempo value in the
file (500,000 µs when absent or zero) — but the importer does not clamp it
to the data-model range [40, 240]; concretely, two Set Tempo events show
the last one winning end to end. -/
theorem import_bpm_formula :
    (∀ (midi : ParsedMidi) (filename : String) (gen : ℕ) (p : Project) (g : ℕ),
        buildProjectFromMidi midi filename gen = .ok (p, g) →
        p.bpm = (jsRound (60000000 /
          ((if midi.tempo = 0 then 500000 else midi.tempo : ℤ) : ℚ)) : ℚ))
    ∧ (parseMidi twoTempoBytes).map (·.tempo) = .ok 1000000
    ∧ (importMidi twoTempoBytes "t.mid" 0).map (fun r => r.1.bpm) = .ok 60 := by
  refine ⟨?_, by rfl, by rfl⟩
  intro midi filename gen p g h
  rw [buildProjectFromMidi] at h
  rcases hbs : buildSynthTracks midi.ppq (synthGroupsOf midi) 0 (some 4) gen
      with ⟨tr1, mb1, g1⟩
  rw [hbs] at h
  dsimp only at h
  rcases hbd : buildDrumTrack midi.ppq
      ((midi.tracks.map (·.notes)).flatten.filter (fun n => n.channel = 9))
      tr1 mb1 g1 with e | ⟨tr2, mb2, g2⟩
  · rw [hbd] at h
    simp at h
  · rw [hbd] at h
    dsimp only at h
    simp only [Except.ok.injEq, Prod.mk.injEq] at h
    rcases h with ⟨rfl, rfl⟩
    rfl

/-- **C6 (counterexample)**.  A file whose tempo is 100,000 µs per quarter
imports with bpm 600, outside [40, 240]. -/
theorem import_bpm_unclamped_cex :
    (importMidi tempo100000Bytes "t.mid" 0).map (fun r => r.1.bpm) = .ok 600 ∧
    ¬((40 : ℚ) ≤ 600 ∧ (600 : ℚ) ≤ 240) := by
  exact ⟨by rfl, by decide⟩

/-- Witness for `import_bpm_formula` at a concrete parsed file with
tempo 100,000. -/
theorem import_bpm_formula_witness :
    (600 : ℚ) = (jsRound (60000000 /
      ((if (100000 : ℤ) = 0 then 500000 else (100000 : ℤ) : ℤ) : ℚ)) : ℚ) :=
  import_bpm_formula.1 ⟨0, 480, 100000, []⟩ "t" 0 ⟨"t", 600, []⟩ 0 rfl

/-- **C8**.  A synth note with a non-finite derived frequency, a
non-positive duration, or a non-positive velocity is skipped: the guards
run before any gain node or oscillator is created, so `scheduleSynthNote`
yields nothing for it and throws nothing; and dropping such a note from a
block leaves the rest of the scheduling pass unchanged — the other notes
are still scheduled. -/
theorem scheduleSynthNote_skips_bad_notes :
    (∀ (track : Track) (note : Note) (startTime duration : Option ℚ),
        (midiToFrequency (jsAddQ note.pitch (some (track.octave * 12))) = none
         ∨ (∃ d, duration = some d ∧ d ≤ 0)
         ∨ (∃ v, note.velocity = some v ∧ v ≤ 0)) →
        scheduleSynthNote track note startTime duration = none)
    ∧ (∀ (track : Track) (block : Block) (spb : Option ℚ) (st : ℚ)
          (xs ys : List Note) (bad : Note),
        scheduleSynthNote track bad
            (jsAddQ (some st) (jsMulQ (jsAddQ (some block.startBeat) bad.start) spb))
            (jsMulQ bad.duration spb) = none →
        scheduleBlockNotes track { block with notes := xs ++ bad :: ys } spb st =
          scheduleBlockNotes track { block with notes := xs ++ ys } spb st) := by
  constructor
  · intro track note startTime duration h
    rcases h with hf | ⟨d, hd, hd0⟩ | ⟨v, hv, hv0⟩
    · rw [scheduleSynthNote, hf]
    · rw [scheduleSynthNote]
      cases hfreq : midiToFrequency (jsAddQ note.pitch (some (track.octave * 12))) with
      | none => rfl
      | some f =>
        subst hd
        cases startTime with
        | none => rfl
        | some st => simp [hd0]
    · rw [scheduleSynthNote]
      cases hfreq : midiToFrequency (jsAddQ note.pitch (some (track.octave * 12))) with
      | none => rfl
      | some f =>
        cases startTime with
        | none => rfl
        | some st =>
          cases duration with
          | none => rfl
          | some d =>
            by_cases hd : d ≤ 0
            · simp [hd]
            · simp [hd, hv, hv0]
  · intro track block spb st xs ys bad h
    rw [scheduleBlockNotes, scheduleBlockNotes]
    dsimp only
    rw [List.filterMap_append, List.filterMap_append, List.filterMap_cons, h]

/-- Witness for `scheduleSynthNote_skips_bad_notes`: a velocity-0 note is
skipped and removing it does not change what else gets scheduled. -/
theorem scheduleSynthNote_skips_bad_notes_witness :
    scheduleSynthNote
        ⟨"t", "synth", "NES", "pulse25", 1, 0, 0, false, false, []⟩
        ⟨some 60, some 0, some 1, some 0⟩ (some 0) (some (1/2)) = none ∧
    scheduleBlockNotes
        ⟨"t", "synth", "NES", "pulse25", 1, 0, 0, false, false, []⟩
        { id := "b", startBeat := 0,
          length := some 4,
          notes := [] ++ ⟨some 60, some 0, some 1, some 0⟩ :: [],
          pattern := JsVal.arrL [] } (some (1/2)) 0 =
      scheduleBlockNotes
        ⟨"t", "synth", "NES", "pulse25", 1, 0, 0, false, false, []⟩
        { id := "b", startBeat := 0, length := some 4, notes := [] ++ [],
          pattern := JsVal.arrL [] } (some (1/2)) 0 := by
  constructor
  · exact scheduleSynthNote_skips_bad_notes.1 _ _ _ _
      (Or.inr (Or.inr ⟨0, rfl, le_refl 0⟩))
  · exact scheduleSynthNote_skips_bad_notes.2
      ⟨"t", "synth", "NES", "pulse25", 1, 0, 0, false, false, []⟩
      ⟨"b", 0, some 4, [], JsVal.arrL []⟩ (some (1/2)) 0 [] []
      ⟨some 60, some 0, some 1, some 0⟩
      (scheduleSynthNote_skips_bad_notes.1 _ _ _ _
        (Or.inr (Or.inr ⟨0, rfl, le_refl 0⟩)))

theorem ebind_error {α β : Type} (e : String) (f : α → Except String β) :
    (Except.error e : Except String α) >>= f = .error e := rfl

theorem ebind_ok {α β : Type} (a : α) (f : α → Except String β) :
    (Except.ok a : Except String α) >>= f = f a := rfl

theorem epure_def {α : Type} (a : α) :
    (pure a : Except String α) = .ok a := rfl

theorem consoleWaves_ne_nil : ∀ (s : String) (l : List String),
    CONSOLE_WAVES s = some l → l ≠ [] := by
  intro s l h
  unfold CONSOLE_WAVES at h
  split at h <;> cases h <;> decide

theorem consoleWaves_no_empty : ∀ (s : String) (l : List String),
    CONSOLE_WAVES s = some l → "" ∉ l := by
  intro s l h
  unfold CONSOLE_WAVES at h
  split at h <;> cases h <;> decide

theorem default_templates_valid :
    ∀ t ∈ DEFAULT_TRACKS, (CONSOLE_WAVES t.console).isSome = true := by decide

theorem createTrack_console_valid (i g : ℕ) :
    (CONSOLE_WAVES (createTrack i none g).1.console).isSome = true := by
  have hget : ((DEFAULT_TRACKS.get? i).getD
      (DEFAULT_TRACKS.get ⟨0, by decide⟩)) ∈ DEFAULT_TRACKS := by
    rcases h : DEFAULT_TRACKS.get? i with _ | t
    · simp only [h, Option.getD_none]
      exact List.get_mem _ _ _
    · simp only [h, Option.getD_some]
      exact List.get?_mem h
  rw [createTrack]
  dsimp only
  exact default_templates_valid _ hget
  all_goals intro hcontra
  all_goals cases hcontra

theorem normalizeTrack_waveform (track : JsVal) (index : ℕ) (gen : ℕ)
    (tr : Track) (g : ℕ) (h : normalizeTrack track index gen = .ok (tr, g)) :
    tr.waveform ∈ (CONSOLE_WAVES tr.console).getD [] := by
  rw [normalizeTrack] at h
  rcases hct : createTrack index none gen with ⟨base, g1⟩
  rw [hct] at h
  dsimp only at h
  rcases hnb : normalizeBlocks ((if track.isObjectLike then track else JsVal.obj []).getF "blocks")
      (if ((if track.isObjectLike then track else JsVal.obj []).getF "type").asString = some "drums"
         then "drums"
       else if ((if track.isObjectLike then track else JsVal.obj []).getF "type").asString = some "synth"
         then "synth" else base.type)
      (getDrumRowsForConsole
        (match ((if track.isObjectLike then track else JsVal.obj []).getF "console").asString with
         | some s => if (CONSOLE_WAVES s).isSome = true then s else base.console
         | none => base.console)) g1 with e | ⟨blocks, g2⟩
  · rw [hnb, ebind_error] at h
    cases h
  · rw [hnb, ebind_ok] at h
    try dsimp only at h
    simp only [epure_def, Except.ok.injEq, Prod.mk.injEq] at h
    rcases h with ⟨rfl, rfl⟩
    have hbase : (CONSOLE_WAVES base.console).isSome = true := by
      have := createTrack_console_valid index gen
      rw [hct] at this
      exact this
    dsimp only
    set consoleName :=
      (match ((if track.isObjectLike then track else JsVal.obj []).getF "console").asString with
       | some s => if (CONSOLE_WAVES s).isSome = true then s else base.console
       | none => base.console) with hcn
    have hvalid : (CONSOLE_WAVES consoleName).isSome = true := by
      rw [hcn]
      split
      · split
        · assumption
        · exact hbase
      · exact hbase
    rcases hw : CONSOLE_WAVES consoleName with _ | waves
    · rw [hw] at hvalid
      simp at hvalid
    have hnil : waves ≠ [] := consoleWaves_ne_nil _ _ hw
    simp only [Option.getD_some]
    cases hwaves : waves with
    | nil => exact absurd hwaves hnil
    | cons w0 rest =>
      have hne : ¬(w0 = "") := by
        have h0 := consoleWaves_no_empty _ _ hw
        rw [hwaves] at h0
        intro hEq
        exact h0 (by rw [← hEq]; exact List.mem_cons_self _ _)
      simp only [List.head?_cons]
      split
      · rename_i w hws
        by_cases hc : (w0 :: rest).contains w = true
        · simp only [if_pos hc]
          exact List.mem_of_elem_eq_true hc
        · simp only [if_neg hc, if_neg hne]
          exact List.mem_cons_self _ _
      · simp only [if_neg hne]
        exact List.mem_cons_self _ _

theorem lookupField_setField_self (fs : List (String × JsVal)) (k : String)
    (v : JsVal) : JsVal.lookupField (JsVal.setField fs k v) k = some v := by
  induction fs with
  | nil => simp [JsVal.setField, JsVal.lookupField]
  | cons hd tl ih =>
    obtain ⟨k', w⟩ := hd
    by_cases h : k' = k
    · simp [JsVal.setField, JsVal.lookupField, h]
    · simp [JsVal.setField, JsVal.lookupField, h, ih]

theorem lookupField_setField_ne (fs : List (String × JsVal)) (k k' : String)
    (v : JsVal) (h : k' ≠ k) :
    JsVal.lookupField (JsVal.setField fs k' v) k = JsVal.lookupField fs k := by
  induction fs with
  | nil => simp [JsVal.setField, JsVal.lookupField, h]
  | cons hd tl ih =>
    obtain ⟨k'', w⟩ := hd
    by_cases h2 : k'' = k'
    · subst h2
      simp [JsVal.setField, JsVal.lookupField, h]
    · by_cases h3 : k'' = k
      · simp [JsVal.setField, JsVal.lookupField, h2, h3, Ne.symm h]
      · simp [JsVal.setField, JsVal.lookupField, h2, h3, ih]

theorem getF_setF_self (v : JsVal) (k : String) (x : JsVal)
    (h : v.isObjectLike = true) : (v.setF k x).getF k = x := by
  cases v <;> simp_all [JsVal.isObjectLike, JsVal.setF, JsVal.getF,
    lookupField_setField_self]

theorem getF_setF_ne (v : JsVal) (k k' : String) (x : JsVal) (h : k' ≠ k) :
    (v.setF k' x).getF k = v.getF k := by
  cases v <;> simp [JsVal.setF, JsVal.getF, lookupField_setField_ne _ _ _ _ h]

theorem isObjectLike_setF (v : JsVal) (k : String) (x : JsVal) :
    (v.setF k x).isObjectLike = v.isObjectLike := by
  cases v <;> simp [JsVal.setF, JsVal.isObjectLike]

theorem normalizeDrumEvent_drum (e : JsVal) (g : ℕ) :
    ((normalizeDrumEvent e g).1).getF "drum" = e.getF "drum" := by
  rw [normalizeDrumEvent]
  by_cases h : (e.getF "id").truthy
  · simp only [h, if_true]
    rfl
  · simp only [h]
    rfl

theorem normalizeDrumEvents_mem (es : List JsVal) (g : ℕ) :
    ∀ e ∈ (normalizeDrumEvents es g).1,
      ∃ e0 ∈ es, ∃ g', e = (normalizeDrumEvent e0 g').1 := by
  induction es generalizing g with
  | nil => simp [normalizeDrumEvents]
  | cons a rest ih =>
    intro e he
    rw [normalizeDrumEvents] at he
    rcases hna : normalizeDrumEvent a g with ⟨a', g1⟩
    rw [hna] at he
    dsimp only at he
    rcases hrest : normalizeDrumEvents rest g1 with ⟨rest', g2⟩
    rw [hrest] at he
    dsimp only at he
    cases he with
    | head =>
      refine ⟨a, List.mem_cons_self _ _, g, ?_⟩
      rw [hna]
    | tail _ he =>
      have := ih g1
      rw [hrest] at this
      rcases this e he with ⟨e0, he0, g', rfl⟩
      exact ⟨e0, List.mem_cons_of_mem _ he0, g', rfl⟩


theorem isObjectLike_of_getF_asArray (v : JsVal) (k : String)
    (es : List JsVal) (h : (v.getF k).asArray = some es) :
    v.isObjectLike = true := by
  cases v <;> simp_all [JsVal.getF, JsVal.asArray, JsVal.isObjectLike]

theorem ensureVolumes_getF_ne (pattern : JsVal) (effRows : List String)
    (k : String) (h : k ≠ "volumes") :
    (ensureVolumes pattern effRows).getF k = pattern.getF k := by
  rw [ensureVolumes]
  try dsimp only
  rw [getF_setF_ne _ _ _ _ (Ne.symm h)]
  split
  · rfl
  · rw [getF_setF_ne _ _ _ _ (Ne.symm h)]

theorem isObjectLike_ensureVolumes (pattern : JsVal) (effRows : List String) :
    (ensureVolumes pattern effRows).isObjectLike = pattern.isObjectLike := by
  rw [ensureVolumes]
  try dsimp only
  rw [isObjectLike_setF]
  split
  · rfl
  · rw [isObjectLike_setF]

theorem eq_str_of_asString (v : JsVal) (s : String)
    (h : v.asString = some s) : v = JsVal.str s := by
  cases v <;> simp_all [JsVal.asString]

theorem ensureNormalizePhase_drums_in_rows (pattern : JsVal)
    (rows : List String) (gen : ℕ) (P : JsVal) (g : ℕ)
    (h : ensureNormalizePhase pattern rows gen = .ok (P, g)) :
    ∀ e ∈ ((P.getF "events").asArray).getD [],
      ∃ s, e.getF "drum" = JsVal.str s ∧
        JsVal.str s ∈ ((P.getF "rows").asArray).getD [] := by
  rw [ensureNormalizePhase] at h
  set pat1 := if (pattern.getF "events").truthy then pattern
    else pattern.setF "events" (JsVal.arrL []) with hpat1
  set effRows := if rows ≠ [] then rows else DEFAULT_DRUM_ROWS with heff
  set pat2 := pat1.setF "rows" (JsVal.arrL (effRows.map JsVal.str)) with hpat2
  rcases hev : (pat2.getF "events").asArray with _ | events
  · rw [hev] at h
    cases h
  · rw [hev] at h
    dsimp only at h
    rcases hnd : normalizeDrumEvents (events.filter (fun e =>
      e.truthy && (match (e.getF "drum").asString with
                   | some s => effRows.contains s
                   | none => false))) gen with ⟨normalized, g2⟩
    rw [hnd] at h
    dsimp only at h
    simp only [Except.ok.injEq] at h
    rcases h with ⟨rfl, rfl⟩
    have hobj2 : pat2.isObjectLike = true :=
      isObjectLike_of_getF_asArray _ _ _ hev
    have hobj1 : pat1.isObjectLike = true := by
      have h2 := hobj2
      rw [hpat2, isObjectLike_setF] at h2
      exact h2
    have hPev : ((ensureVolumes (pat2.setF "events" (JsVal.arrL normalized)) effRows).getF
        "events") = JsVal.arrL normalized := by
      rw [ensureVolumes_getF_ne _ _ _ (by decide)]
      exact getF_setF_self _ _ _ hobj2
    have hProws : ((ensureVolumes (pat2.setF "events" (JsVal.arrL normalized)) effRows).getF
        "rows") = JsVal.arrL (effRows.map JsVal.str) := by
      rw [ensureVolumes_getF_ne _ _ _ (by decide)]
      rw [getF_setF_ne _ _ _ _ (by decide)]
      rw [hpat2]
      exact getF_setF_self _ _ _ hobj1
    intro e he
    rw [hPev] at he
    simp only [JsVal.arrL, JsVal.asArray, Option.getD_some] at he
    rcases normalizeDrumEvents_mem _ _ _ (by rw [hnd]; exact he) with ⟨e0, he0, g', rfl⟩
    rw [List.mem_filter] at he0
    rcases he0 with ⟨_, hpred⟩
    rw [Bool.and_eq_true] at hpred
    rcases hpred with ⟨_, hdrum⟩
    rcases hds : (e0.getF "drum").asString with _ | s
    · rw [hds] at hdrum
      dsimp only at hdrum
      exact absurd hdrum (by decide)
    · rw [hds] at hdrum
      dsimp only at hdrum
      refine ⟨s, ?_, ?_⟩
      · rw [normalizeDrumEvent_drum]
        exact eq_str_of_asString _ _ hds
      · rw [hProws]
        simp only [JsVal.arrL, JsVal.asArray, Option.getD_some]
        exact List.mem_map_of_mem _ (List.mem_of_elem_eq_true hdrum)

theorem ensureDrumPattern_drums_in_rows (block : JsVal) (rows : List String)
    (gen : ℕ) (P b' : JsVal) (g : ℕ)
    (h : ensureDrumPattern block rows gen = .ok (P, b', g)) :
    ∀ e ∈ ((P.getF "events").asArray).getD [],
      ∃ s, e.getF "drum" = JsVal.str s ∧
        JsVal.str s ∈ ((P.getF "rows").asArray).getD [] := by
  rw [ensureDrumPattern] at h
  rcases hlg : ensureLegacyGrid (block.getF "length").asFinite
      (if (block.getF "pattern").isObjectLike then block.getF "pattern"
       else JsVal.obj []) rows gen with e | ⟨pat1, g1⟩
  · rw [hlg] at h
    cases h
  · rw [hlg] at h
    dsimp only at h
    rcases hnp : ensureNormalizePhase pat1 rows g1 with e | ⟨pat2, g2⟩
    · rw [hnp] at h
      cases h
    · rw [hnp] at h
      dsimp only at h
      simp only [Except.ok.injEq, Prod.mk.injEq] at h
      rcases h with ⟨rfl, rfl, rfl⟩
      exact ensureNormalizePhase_drums_in_rows _ _ _ _ _ hnp

theorem normalizeTracks_waveform :
    ∀ (count : ℕ) (incoming : List JsVal) (index gen : ℕ)
      (tr : List Track) (g : ℕ),
      normalizeTracks incoming index count gen = .ok (tr, g) →
      ∀ t ∈ tr, t.waveform ∈ (CONSOLE_WAVES t.console).getD [] := by
  intro count
  induction count with
  | zero =>
    intro incoming index gen tr g h t ht
    rw [normalizeTracks, epure_def] at h
    simp only [Except.ok.injEq, Prod.mk.injEq] at h
    rcases h with ⟨rfl, rfl⟩
    simp at ht
  | succ c ih =>
    intro incoming index gen tr g h t ht
    rw [normalizeTracks] at h
    rcases hnt : normalizeTrack ((incoming.get? index).getD .undef) index gen
        with e | ⟨t0, g1⟩
    · rw [hnt, ebind_error] at h
      cases h
    · rw [hnt, ebind_ok] at h
      dsimp only at h
      rcases hrest : normalizeTracks incoming (index + 1) c g1 with e | ⟨rest, g2⟩
      · rw [hrest, ebind_error] at h
        cases h
      · rw [hrest, ebind_ok] at h
        dsimp only at h
        simp only [epure_def, Except.ok.injEq, Prod.mk.injEq] at h
        rcases h with ⟨rfl, rfl⟩
        cases ht with
        | head => exact normalizeTrack_waveform _ _ _ _ _ hnt
        | tail _ ht => exact ih _ _ _ _ _ hrest _ ht

/-- **C2**.  Whenever `normalizeProject` returns, every track's waveform
belongs to its console's waveform set (an unknown console falls back to the
template default and an unknown waveform to the console's first waveform —
demonstrated on concrete inputs); and whenever `ensureDrumPattern` returns,
every event of the produced pattern has a `drum` that is a member of the
pattern's `rows` array. -/
theorem normalize_invariants :
    (∀ (raw : JsVal) (gen : ℕ) (p : Project) (g : ℕ),
        normalizeProject raw gen = .ok (p, g) →
        ∀ t ∈ p.tracks, t.waveform ∈ (CONSOLE_WAVES t.console).getD [])
    ∧ (∀ (block : JsVal) (rows : List String) (gen : ℕ) (P b' : JsVal) (g : ℕ),
        ensureDrumPattern block rows gen = .ok (P, b', g) →
        ∀ e ∈ ((P.getF "events").asArray).getD [],
          ∃ s, e.getF "drum" = JsVal.str s ∧
            JsVal.str s ∈ ((P.getF "rows").asArray).getD [])
    ∧ (normalizeProject (.obj [("tracks", JsVal.arrL
          [.obj [("console", .str "Amiga")]])]) 0).map
        (fun r => (r.1.tracks.map (·.console)).take 1) = .ok ["NES"]
    ∧ (normalizeProject (.obj [("tracks", JsVal.arrL
          [.obj [("console", .str "NES"), ("waveform", .str "saw")]])]) 0).map
        (fun r => (r.1.tracks.map (·.waveform)).take 1) = .ok ["pulse12"] := by
  refine ⟨?_, ensureDrumPattern_drums_in_rows, by rfl, by rfl⟩
  intro raw gen p g h t ht
  rw [normalizeProject] at h
  rcases hnt : normalizeTracks
      (((((if raw.isObjectLike then raw else JsVal.obj []).getF "tracks").asArray).getD []).take MAX_TRACKS)
      0 (max (((((if raw.isObjectLike then raw else JsVal.obj []).getF "tracks").asArray).getD []).take MAX_TRACKS).length 5)
      gen with e | ⟨tracks, g2⟩
  · rw [hnt, ebind_error] at h
    cases h
  · rw [hnt, ebind_ok] at h
    dsimp only at h
    simp only [epure_def, Except.ok.injEq, Prod.mk.injEq] at h
    rcases h with ⟨rfl, rfl⟩
    exact normalizeTracks_waveform _ _ _ _ _ _ hnt t ht

/-- Witness for `normalize_invariants` on a concrete project and a concrete
drum block. -/
theorem normalize_invariants_witness :
    ("pulse12" ∈ (CONSOLE_WAVES "NES").getD []) ∧
    (∃ s, (JsVal.obj [("id", .str "e1"), ("drum", .str "kick"),
        ("start", .num (some 0)), ("duration", .num (some 1)),
        ("velocity", .num (some (1/2)))]).getF "drum" = JsVal.str s ∧
      JsVal.str s ∈ ((oneKickPattern.getF "rows").asArray).getD []) := by
  constructor
  · exact normalize_invariants.1 (.obj []) 0
      ⟨"Untitled Project", 120,
        [⟨"id0", "synth", "NES", "pulse12", 4/5, 0, 0, false, false, []⟩,
         ⟨"id1", "synth", "C64", "triangle", 4/5, 0, 0, false, false, []⟩,
         ⟨"id2", "synth", "Atari", "square", 4/5, 0, 0, false, false, []⟩,
         ⟨"id3", "synth", "Sega", "fm", 4/5, 0, 0, false, false, []⟩,
         ⟨"id4", "drums", "NES", "pulse12", 4/5, 0, 0, false, false, []⟩]⟩ 5 rfl
      ⟨"id0", "synth", "NES", "pulse12", 4/5, 0, 0, false, false, []⟩
      (by simp)
  · exact normalize_invariants.2.1 oneKickBlock ["kick"] 0 oneKickPattern
      oneKickBlockAfter 0 rfl
      (.obj [("id", .str "e1"), ("drum", .str "kick"),
        ("start", .num (some 0)), ("duration", .num (some 1)),
        ("velocity", .num (some (1/2)))])
      (by simp [oneKickPattern, JsVal.getF, JsVal.lookupField, JsVal.arrL, JsVal.asArray])

theorem qMax_eq_right {a b : ℚ} (h : a ≤ b) : qMax a b = b := by
  rw [qMax]
  split
  · exact le_antisymm (by assumption) h |>.symm
  · rfl

theorem qMax_eq_left {a b : ℚ} (h : b ≤ a) : qMax a b = a := by
  rw [qMax, if_pos h]

theorem le_qMax_left (a b : ℚ) : a ≤ qMax a b := by
  rw [qMax]
  split
  · exact le_refl a
  · exact le_of_not_le (by assumption)

theorem le_qMax_right (a b : ℚ) : b ≤ qMax a b := by
  rw [qMax]
  split
  · assumption
  · exact le_refl b

theorem qMin_eq_left {a b : ℚ} (h : a ≤ b) : qMin a b = a := by
  rw [qMin, if_pos h]

theorem qMin_le_right (a b : ℚ) : qMin a b ≤ b := by
  rw [qMin]
  split
  · assumption
  · exact le_refl b

theorem jsClamp_nonneg (q : ℚ) : 0 ≤ jsClamp q 0 1 := by
  rw [jsClamp, qMin]
  split
  · exact le_qMax_right q 0
  · exact zero_le_one

theorem jsClamp_le_one (q : ℚ) : jsClamp q 0 1 ≤ 1 := qMin_le_right _ _

theorem jsClamp_idem {v : ℚ} (h0 : 0 ≤ v) (h1 : v ≤ 1) : jsClamp v 0 1 = v := by
  rw [jsClamp, qMax_eq_left h0, qMin_eq_left h1]

theorem createId_ne_empty (g : ℕ) : (createId g).1 ≠ "" := by
  rw [createId]
  intro h
  have h2 : ("id" ++ toString g).length = 0 := by
    rw [show ("id" ++ toString g) = ("id" ++ toString g, g + 1).1 from rfl, h]
    rfl
  rw [String.length_append] at h2
  have h3 : ("id" : String).length = 2 := rfl
  omega

theorem truthy_of_objectLike {v : JsVal} (h : v.isObjectLike = true) :
    v.truthy = true := by
  cases v <;> simp_all [JsVal.isObjectLike, JsVal.truthy]

theorem setF_primitive {v : JsVal} (k : String) (x : JsVal)
    (h : v.isObjectLike = false) : v.setF k x = v := by
  cases v <;> simp_all [JsVal.isObjectLike, JsVal.setF]

theorem getF_eq_lookupF (v : JsVal) (k : String) :
    v.getF k = (lookupF v k).getD .undef := by
  cases v <;> rfl

theorem lookupF_setF_self (v : JsVal) (k : String) (x : JsVal)
    (h : v.isObjectLike = true) : lookupF (v.setF k x) k = some x := by
  cases v <;> simp_all [JsVal.isObjectLike, JsVal.setF, lookupF,
    lookupField_setField_self]

theorem lookupF_setF_ne (v : JsVal) (k k' : String) (x : JsVal)
    (h : k' ≠ k) : lookupF (v.setF k' x) k = lookupF v k := by
  cases v <;> simp [JsVal.setF, lookupF, lookupField_setField_ne _ _ _ _ h]

theorem setField_lookup_self (fs : List (String × JsVal)) (k : String)
    (x : JsVal) (h : JsVal.lookupField fs k = some x) :
    JsVal.setField fs k x = fs := by
  induction fs with
  | nil => cases h
  | cons hd tl ih =>
    obtain ⟨k', w⟩ := hd
    by_cases h2 : k' = k
    · rw [JsVal.lookupField, if_pos h2] at h
      rcases h with ⟨rfl⟩
      rw [JsVal.setField, if_pos h2]
    · rw [JsVal.lookupField, if_neg h2] at h
      rw [JsVal.setField, if_neg h2, ih h]

theorem setF_lookup_self (v : JsVal) (k : String) (x : JsVal)
    (h : lookupF v k = some x) : v.setF k x = v := by
  cases v <;> simp_all [lookupF, JsVal.setF, setField_lookup_self]

theorem getF_primitive {v : JsVal} (k : String)
    (h : v.isObjectLike = false) : v.getF k = .undef := by
  cases v <;> simp_all [JsVal.isObjectLike, JsVal.getF]

theorem qMax_getD_left (a dflt : ℚ) (o : Option ℚ) (h : a ≤ dflt) :
    a ≤ (o.map (fun q => qMax a q)).getD dflt := by
  cases o
  · exact h
  · exact le_qMax_left a _

theorem clamp01_getD_bounds (o : Option ℚ) :
    0 ≤ (o.map (fun q => jsClamp q 0 1)).getD (9/10)
    ∧ (o.map (fun q => jsClamp q 0 1)).getD (9/10) ≤ 1 := by
  cases o
  · constructor <;> norm_num
  · exact ⟨jsClamp_nonneg _, jsClamp_le_one _⟩

theorem normalizeDrumEvent_shape (e : JsVal) (g : ℕ) :
    ∃ idOut s d v, (normalizeDrumEvent e g).1 =
      JsVal.obj [("id", idOut), ("drum", e.getF "drum"),
        ("start", JsVal.num (some s)), ("duration", JsVal.num (some d)),
        ("velocity", JsVal.num (some v))] ∧
      idOut.truthy = true ∧ 0 ≤ s ∧ (1/20 : ℚ) ≤ d ∧ 0 ≤ v ∧ v ≤ 1 := by
  rw [normalizeDrumEvent]
  by_cases hid : (e.getF "id").truthy
  · refine ⟨e.getF "id",
      (((e.getF "start").asFinite).map (fun q => qMax 0 q)).getD 0,
      (((e.getF "duration").asFinite).map (fun q => qMax (1/20) q)).getD (1/4),
      (((e.getF "velocity").asFinite).map (fun q => jsClamp q 0 1)).getD (9/10),
      ?_, hid, ?_, ?_, ?_, ?_⟩
    · simp only [hid, if_true]
    · exact qMax_getD_left 0 0 _ (le_refl 0)
    · exact qMax_getD_left (1/20) (1/4) _ (by norm_num)
    · exact (clamp01_getD_bounds _).1
    · exact (clamp01_getD_bounds _).2
  · refine ⟨JsVal.str (createId g).1,
      (((e.getF "start").asFinite).map (fun q => qMax 0 q)).getD 0,
      (((e.getF "duration").asFinite).map (fun q => qMax (1/20) q)).getD (1/4),
      (((e.getF "velocity").asFinite).map (fun q => jsClamp q 0 1)).getD (9/10),
      ?_, ?_, ?_, ?_, ?_, ?_⟩
    · simp only [hid]
      rfl
    · have := createId_ne_empty g
      simp [JsVal.truthy, this]
    · exact qMax_getD_left 0 0 _ (le_refl 0)
    · exact qMax_getD_left (1/20) (1/4) _ (by norm_num)
    · exact (clamp01_getD_bounds _).1
    · exact (clamp01_getD_bounds _).2

theorem normalizeDrumEvent_truthy (e : JsVal) (g : ℕ) :
    ((normalizeDrumEvent e g).1).truthy = true := by
  obtain ⟨idOut, s, d, v, hE, _⟩ := normalizeDrumEvent_shape e g
  rw [hE]
  rfl

theorem normalizeDrumEvent_idem (e : JsVal) (g g2 : ℕ) :
    normalizeDrumEvent ((normalizeDrumEvent e g).1) g2
      = ((normalizeDrumEvent e g).1, g2) := by
  obtain ⟨idOut, s, d, v, hE, hidT, hs, hd, hv0, hv1⟩ := normalizeDrumEvent_shape e g
  rw [hE]
  rw [normalizeDrumEvent]
  have hgid : (JsVal.obj [("id", idOut), ("drum", e.getF "drum"),
      ("start", JsVal.num (some s)), ("duration", JsVal.num (some d)),
      ("velocity", JsVal.num (some v))]).getF "id" = idOut := rfl
  rw [hgid]
  dsimp only [createId]
  simp only [hidT, if_true]
  have h1 : (((JsVal.obj [("id", idOut), ("drum", e.getF "drum"),
      ("start", JsVal.num (some s)), ("duration", JsVal.num (some d)),
      ("velocity", JsVal.num (some v))]).getF "start").asFinite.map
        (fun q => qMax 0 q)).getD 0 = s := by
    show qMax 0 s = s
    exact qMax_eq_right hs
  have h2 : (((JsVal.obj [("id", idOut), ("drum", e.getF "drum"),
      ("start", JsVal.num (some s)), ("duration", JsVal.num (some d)),
      ("velocity", JsVal.num (some v))]).getF "duration").asFinite.map
        (fun q => qMax (1/20) q)).getD (1/4) = d := by
    show qMax (1/20) d = d
    exact qMax_eq_right hd
  have h3 : (((JsVal.obj [("id", idOut), ("drum", e.getF "drum"),
      ("start", JsVal.num (some s)), ("duration", JsVal.num (some d)),
      ("velocity", JsVal.num (some v))]).getF "velocity").asFinite.map
        (fun q => jsClamp q 0 1)).getD (9/10) = v := by
    show jsClamp v 0 1 = v
    exact jsClamp_idem hv0 hv1
  rw [h1, h2, h3]
  rfl

theorem normalizeDrumEvents_idem (es : List JsVal) (g g2 : ℕ) :
    normalizeDrumEvents ((normalizeDrumEvents es g).1) g2
      = ((normalizeDrumEvents es g).1, g2) := by
  induction es generalizing g g2 with
  | nil => rfl
  | cons e rest ih =>
    rcases h1 : normalizeDrumEvent e g with ⟨e1, ga⟩
    rcases h2 : normalizeDrumEvents rest ga with ⟨rest1, gb⟩
    have hcons : normalizeDrumEvents (e :: rest) g = (e1 :: rest1, gb) := by
      rw [normalizeDrumEvents, h1]
      dsimp only
      rw [h2]
    rw [hcons]
    dsimp only
    have he1 : normalizeDrumEvent e1 g2 = (e1, g2) := by
      have := normalizeDrumEvent_idem e g g2
      rw [h1] at this
      exact this
    have hrest1 : normalizeDrumEvents rest1 g2 = (rest1, g2) := by
      have := ih ga g2
      rw [h2] at this
      exact this
    rw [normalizeDrumEvents, he1]
    dsimp only
    rw [hrest1]

theorem backfill_isObjectLike (rows : List String) (v : JsVal) :
    (backfillVolumes v rows).isObjectLike = v.isObjectLike := by
  induction rows generalizing v with
  | nil => rfl
  | cons r rest ih =>
    rw [backfillVolumes]
    try dsimp only
    split
    · exact ih v
    · rw [ih, isObjectLike_setF]

theorem getF_setF_num_finite (v : JsVal) (k k' : String) (q : ℚ)
    (h : ((v.getF k').isFiniteNum) = true) :
    (((v.setF k (JsVal.num (some q))).getF k').isFiniteNum) = true := by
  by_cases hk : k = k'
  · subst hk
    by_cases ho : v.isObjectLike = true
    · rw [getF_setF_self _ _ _ ho]
      rfl
    · rw [setF_primitive _ _ (Bool.not_eq_true _ ▸ ho)]
      exact h
  · rw [getF_setF_ne _ _ _ _ hk]
    exact h

theorem backfill_preserves_finite (rows : List String) (v : JsVal) (r : String)
    (h : ((v.getF r).isFiniteNum) = true) :
    (((backfillVolumes v rows).getF r).isFiniteNum) = true := by
  induction rows generalizing v with
  | nil => exact h
  | cons r0 rest ih =>
    rw [backfillVolumes]
    try dsimp only
    split
    · exact ih v h
    · exact ih _ (getF_setF_num_finite _ _ _ _ h)

theorem backfill_finite_mem (rows : List String) (v : JsVal)
    (hobj : v.isObjectLike = true) :
    ∀ r ∈ rows, (((backfillVolumes v rows).getF r).isFiniteNum) = true := by
  induction rows generalizing v with
  | nil =>
    intro r hr
    cases hr
  | cons r0 rest ih =>
    intro r hr
    rw [backfillVolumes]
    try dsimp only
    cases hr with
    | head =>
      split
      · exact backfill_preserves_finite _ _ _ (by assumption)
      · refine backfill_preserves_finite _ _ _ ?_
        rw [getF_setF_self _ _ _ hobj]
        rfl
    | tail _ hr =>
      split
      · exact ih v hobj r hr
      · exact ih _ (by rw [isObjectLike_setF]; exact hobj) r hr

theorem backfill_id (rows : List String) (v : JsVal)
    (h : ∀ r ∈ rows, ((v.getF r).isFiniteNum) = true) :
    backfillVolumes v rows = v := by
  induction rows generalizing v with
  | nil => rfl
  | cons r0 rest ih =>
    rw [backfillVolumes]
    try dsimp only
    rw [if_pos (h r0 (List.mem_cons_self _ _))]
    exact ih v (fun r hr => h r (List.mem_cons_of_mem _ hr))

theorem ensureVolumes_lookupF_ne (pattern : JsVal) (effRows : List String)
    (k : String) (h : k ≠ "volumes") :
    lookupF (ensureVolumes pattern effRows) k = lookupF pattern k := by
  rw [ensureVolumes]
  try dsimp only
  rw [lookupF_setF_ne _ _ _ _ (Ne.symm h)]
  split
  · rfl
  · rw [lookupF_setF_ne _ _ _ _ (Ne.symm h)]

theorem ensureVolumes_expand (pattern : JsVal) (effRows : List String)
    (hobj : pattern.isObjectLike = true) :
    ∃ W : JsVal, ensureVolumes pattern effRows
        = W.setF "volumes" (backfillVolumes (W.getF "volumes") effRows)
      ∧ W.isObjectLike = true ∧ (W.getF "volumes").isObjectLike = true := by
  by_cases hc : ((pattern.getF "volumes").truthy
      && (pattern.getF "volumes").isObjectLike) = true
  · refine ⟨pattern, ?_, hobj, (Bool.and_eq_true _ _ |>.mp hc).2⟩
    rw [ensureVolumes]
    try dsimp only
    rw [if_pos hc]
  · refine ⟨pattern.setF "volumes" (JsVal.obj []), ?_, ?_, ?_⟩
    · rw [ensureVolumes]
      try dsimp only
      rw [if_neg hc]
    · rw [isObjectLike_setF]
      exact hobj
    · rw [getF_setF_self _ _ _ hobj]
      rfl

theorem ensureVolumes_idem (pattern : JsVal) (effRows : List String)
    (hobj : pattern.isObjectLike = true) :
    ensureVolumes (ensureVolumes pattern effRows) effRows
      = ensureVolumes pattern effRows := by
  obtain ⟨W, hEV, hWobj, hVobj⟩ := ensureVolumes_expand pattern effRows hobj
  have hBobj : (backfillVolumes (W.getF "volumes") effRows).isObjectLike = true := by
    rw [backfill_isObjectLike]
    exact hVobj
  have hQvol : (W.setF "volumes"
        (backfillVolumes (W.getF "volumes") effRows)).getF "volumes"
      = backfillVolumes (W.getF "volumes") effRows :=
    getF_setF_self _ _ _ hWobj
  rw [hEV]
  rw [ensureVolumes]
  try dsimp only
  rw [hQvol]
  have hcond : ((backfillVolumes (W.getF "volumes") effRows).truthy
      && (backfillVolumes (W.getF "volumes") effRows).isObjectLike) = true := by
    rw [Bool.and_eq_true]
    exact ⟨truthy_of_objectLike hBobj, hBobj⟩
  rw [if_pos hcond]
  rw [hQvol]
  rw [backfill_id _ _ (backfill_finite_mem _ _ hVobj)]
  exact setF_lookup_self _ _ _ (lookupF_setF_self _ _ _ hWobj)

theorem ensureNormalizePhase_ok_props (pattern : JsVal) (rows : List String)
    (gen : ℕ) (P : JsVal) (g : ℕ)
    (h : ensureNormalizePhase pattern rows gen = .ok (P, g)) :
    P.isObjectLike = true ∧ (P.getF "events").truthy = true ∧
      ∀ g3, ensureNormalizePhase P rows g3 = .ok (P, g3) := by
  rw [ensureNormalizePhase] at h
  set pat1 := if (pattern.getF "events").truthy then pattern
    else pattern.setF "events" (JsVal.arrL []) with hpat1
  set effRows := if rows ≠ [] then rows else DEFAULT_DRUM_ROWS with heff
  set pat2 := pat1.setF "rows" (JsVal.arrL (effRows.map JsVal.str)) with hpat2
  rcases hev : (pat2.getF "events").asArray with _ | events
  · rw [hev] at h
    cases h
  · rw [hev] at h
    dsimp only at h
    rcases hnd : normalizeDrumEvents (events.filter (fun e =>
      e.truthy && (match (e.getF "drum").asString with
                   | some s => effRows.contains s
                   | none => false))) gen with ⟨normalized, g2⟩
    rw [hnd] at h
    dsimp only at h
    simp only [Except.ok.injEq, Prod.mk.injEq] at h
    rcases h with ⟨rfl, rfl⟩
    have hobj2 : pat2.isObjectLike = true :=
      isObjectLike_of_getF_asArray _ _ _ hev
    have hobj1 : pat1.isObjectLike = true := by
      have h2 := hobj2
      rw [hpat2, isObjectLike_setF] at h2
      exact h2
    have hobj3 : (pat2.setF "events" (JsVal.arrL normalized)).isObjectLike = true := by
      rw [isObjectLike_setF]
      exact hobj2
    have hPobj : (ensureVolumes (pat2.setF "events" (JsVal.arrL normalized))
        effRows).isObjectLike = true := by
      rw [isObjectLike_ensureVolumes]
      exact hobj3
    have hPev : (ensureVolumes (pat2.setF "events" (JsVal.arrL normalized))
        effRows).getF "events" = JsVal.arrL normalized := by
      rw [ensureVolumes_getF_ne _ _ _ (by decide)]
      exact getF_setF_self _ _ _ hobj2
    have hPevL : lookupF (ensureVolumes (pat2.setF "events" (JsVal.arrL normalized))
        effRows) "events" = some (JsVal.arrL normalized) := by
      rw [ensureVolumes_lookupF_ne _ _ _ (by decide)]
      exact lookupF_setF_self _ _ _ hobj2
    have hProwsL : lookupF (ensureVolumes (pat2.setF "events" (JsVal.arrL normalized))
        effRows) "rows" = some (JsVal.arrL (effRows.map JsVal.str)) := by
      rw [ensureVolumes_lookupF_ne _ _ _ (by decide),
        lookupF_setF_ne _ _ _ _ (by decide), hpat2]
      exact lookupF_setF_self _ _ _ hobj1
    refine ⟨hPobj, ?_, ?_⟩
    · rw [hPev]
      rfl
    · intro g3
      have hfilt : normalized.filter (fun e =>
          e.truthy && (match (e.getF "drum").asString with
                       | some s => effRows.contains s
                       | none => false)) = normalized := by
        apply List.filter_eq_self.mpr
        intro e he
        have hmem := normalizeDrumEvents_mem (events.filter (fun e =>
          e.truthy && (match (e.getF "drum").asString with
                       | some s => effRows.contains s
                       | none => false))) gen
        rw [hnd] at hmem
        obtain ⟨e0, he0, g', rfl⟩ := hmem e he
        have he0p := (List.mem_filter.mp he0).2
        rw [Bool.and_eq_true] at he0p
        rw [Bool.and_eq_true]
        refine ⟨normalizeDrumEvent_truthy _ _, ?_⟩
        rw [normalizeDrumEvent_drum]
        exact he0p.2
      have hnd2 : normalizeDrumEvents normalized g3 = (normalized, g3) := by
        have hidem := normalizeDrumEvents_idem (events.filter (fun e =>
          e.truthy && (match (e.getF "drum").asString with
                       | some s => effRows.contains s
                       | none => false))) gen g3
        rw [hnd] at hidem
        exact hidem
      rw [ensureNormalizePhase]
      rw [hPev]
      rw [if_pos (show (JsVal.arrL normalized).truthy = true from rfl)]
      rw [setF_lookup_self _ _ _ hProwsL]
      rw [hPev]
      rw [show (JsVal.arrL normalized).asArray = some normalized from rfl]
      dsimp only
      rw [hfilt, hnd2]
      dsimp only
      rw [setF_lookup_self _ _ _ hPevL]
      rw [ensureVolumes_idem _ _ hobj3]

theorem ensureNormalizePhase_obj_nil (rows : List String) (g : ℕ) :
    ensureNormalizePhase (JsVal.obj []) rows g
      = .ok (emptyPatternNormalized rows, g) := rfl

/-- **C7** (amended).  `ensureDrumPattern` is idempotent on the *block*:
the function mutates `block.pattern` in place and returns the materialized
pattern, and re-applying it to the resulting block state with the same
`rows` returns the same pattern, the same block state, and allocates no
fresh ids.  (The claim's literal nested formula
`ensureDrumPattern(ensureDrumPattern(block, rows), rows)` feeds the
*returned pattern* back in the block position, and is refuted by the
separate counterexample: a pattern has no `.pattern` property, so the inner
result's events are thrown away.) -/
theorem ensureDrumPattern_idem (block : JsVal) (rows : List String) (gen : ℕ)
    (P b' : JsVal) (g : ℕ)
    (h : ensureDrumPattern block rows gen = .ok (P, b', g)) :
    ensureDrumPattern b' rows g = .ok (P, b', g) := by
  by_cases hb : block.isObjectLike = true
  · rw [ensureDrumPattern] at h
    rcases hlg : ensureLegacyGrid (block.getF "length").asFinite
        (if (block.getF "pattern").isObjectLike then block.getF "pattern"
         else JsVal.obj []) rows gen with e | ⟨pat1, g1⟩
    · rw [hlg] at h
      cases h
    · rw [hlg] at h
      dsimp only at h
      rcases hnp : ensureNormalizePhase pat1 rows g1 with e | ⟨pat2, g2⟩
      · rw [hnp] at h
        cases h
      · rw [hnp] at h
        dsimp only at h
        simp only [Except.ok.injEq, Prod.mk.injEq] at h
        rcases h with ⟨rfl, rfl, rfl⟩
        obtain ⟨hPobj, hPevT, hidem⟩ := ensureNormalizePhase_ok_props _ _ _ _ _ hnp
        rw [ensureDrumPattern]
        rw [getF_setF_self _ _ _ hb]
        rw [if_pos hPobj]
        have hlgP : ∀ L g0, ensureLegacyGrid L pat2 rows g0 = .ok (pat2, g0) := by
          intro L g0
          rw [ensureLegacyGrid]
          rw [hPevT]
          rw [if_neg (by decide)]
        rw [hlgP]
        dsimp only
        rw [hidem]
        dsimp only
        rw [setF_lookup_self _ _ _ (lookupF_setF_self _ _ _ hb)]
  · have hb0 : block.isObjectLike = false := Bool.not_eq_true _ ▸ hb
    have hget : block.getF "pattern" = JsVal.undef := getF_primitive _ hb0
    have hlen : block.getF "length" = JsVal.undef := getF_primitive _ hb0
    rw [ensureDrumPattern, hget, hlen] at h
    rw [if_neg (by decide)] at h
    rw [show ensureLegacyGrid (JsVal.undef).asFinite (JsVal.obj []) rows gen
        = .ok (JsVal.obj [], gen) from rfl] at h
    dsimp only at h
    rw [ensureNormalizePhase_obj_nil] at h
    dsimp only at h
    simp only [Except.ok.injEq, Prod.mk.injEq] at h
    rcases h with ⟨rfl, rfl, rfl⟩
    rw [setF_primitive _ _ hb0]
    rw [ensureDrumPattern, hget, hlen]
    rw [if_neg (by decide)]
    rw [show ensureLegacyGrid (JsVal.undef).asFinite (JsVal.obj []) rows gen
        = .ok (JsVal.obj [], gen) from rfl]
    dsimp only
    rw [ensureNormalizePhase_obj_nil]
    dsimp only
    rw [setF_primitive _ _ hb0]

/-- **C7** counterexample to the claim's literal formula: applying
`ensureDrumPattern` to the *returned pattern* (rather than to the mutated
block) is not the identity.  On a block holding one valid kick event the
first application returns a pattern with one event, but feeding that
pattern back in the block position returns a pattern with zero events (a
pattern object has no `pattern` property, so the run restarts from `{}`). -/
theorem ensureDrumPattern_nested_cex :
    (ensureDrumPattern oneKickBlock ["kick"] 0).map
        (fun r => (((r.1.getF "events").asArray).getD []).length) = .ok 1
    ∧ ((ensureDrumPattern oneKickBlock ["kick"] 0).bind
        (fun r => ensureDrumPattern r.1 ["kick"] r.2.2)).map
        (fun r => (((r.1.getF "events").asArray).getD []).length) = .ok 0 :=
  ⟨rfl, rfl⟩

/-- Witness for **C7**: the amended idempotence theorem applied to the
concrete one-kick block. -/
theorem ensureDrumPattern_idem_witness :
    ensureDrumPattern oneKickBlock ["kick"] 0
        = .ok (oneKickPattern, oneKickBlockAfter, 0)
    ∧ ensureDrumPattern oneKickBlockAfter ["kick"] 0
        = .ok (oneKickPattern, oneKickBlockAfter, 0) :=
  ⟨rfl, ensureDrumPattern_idem oneKickBlock ["kick"] 0
    oneKickPattern oneKickBlockAfter 0 rfl⟩

theorem scheduleDrumPattern_shape (block : Block) (spb : Option ℚ)
    (st : ℚ) (gen : ℕ) (hits : List AudioEvent) (b' : Block) (g : ℕ)
    (h : scheduleDrumPattern block spb st gen = .ok (hits, b', g)) :
    ∃ P b2, ensureDrumPattern (blockStub block) (patRows block.pattern) gen
        = .ok (P, b2, g) ∧ b' = { block with pattern := P } := by
  rw [scheduleDrumPattern] at h
  rcases he : ensureDrumPattern (blockStub block) (patRows block.pattern) gen
    with e | ⟨P, b2, g2⟩
  · rw [he] at h
    rw [ebind_error] at h
    cases h
  · rw [he] at h
    rw [ebind_ok] at h
    dsimp only at h
    rw [epure_def] at h
    simp only [Except.ok.injEq, Prod.mk.injEq] at h
    rcases h with ⟨-, rfl, rfl⟩
    exact ⟨P, b2, rfl, rfl⟩

theorem scheduleTrackBlocks_synth (track : Track) (spb : Option ℚ)
    (st : ℚ) (htype : track.type = "synth") :
    ∀ (blocks : List Block) (gen : ℕ) (evs : List AudioEvent)
      (blocks' : List Block) (g : ℕ),
      scheduleTrackBlocks track spb st blocks gen = .ok (evs, blocks', g) →
      blocks' = blocks := by
  intro blocks
  induction blocks with
  | nil =>
    intro gen evs blocks' g h
    rw [scheduleTrackBlocks] at h
    rw [epure_def] at h
    simp only [Except.ok.injEq, Prod.mk.injEq] at h
    exact h.2.1.symm
  | cons b rest ih =>
    intro gen evs blocks' g h
    rw [scheduleTrackBlocks] at h
    rw [if_pos htype] at h
    rw [epure_def, ebind_ok] at h
    dsimp only at h
    rcases hrec : scheduleTrackBlocks track spb st rest gen
      with e | ⟨evsR, rest', gR⟩
    · rw [hrec] at h
      rw [ebind_error] at h
      cases h
    · rw [hrec] at h
      rw [ebind_ok] at h
      dsimp only at h
      rw [epure_def] at h
      simp only [Except.ok.injEq, Prod.mk.injEq] at h
      rcases h with ⟨-, rfl, -⟩
      rw [ih _ _ _ _ hrec]

theorem scheduleTrackBlocks_drums (track : Track) (spb : Option ℚ)
    (st : ℚ) (htype : ¬ track.type = "synth") :
    ∀ (blocks : List Block) (gen : ℕ) (evs : List AudioEvent)
      (blocks' : List Block) (g : ℕ),
      scheduleTrackBlocks track spb st blocks gen = .ok (evs, blocks', g) →
      List.Forall₂ drumBlockUpdated blocks blocks' := by
  intro blocks
  induction blocks with
  | nil =>
    intro gen evs blocks' g h
    rw [scheduleTrackBlocks] at h
    rw [epure_def] at h
    simp only [Except.ok.injEq, Prod.mk.injEq] at h
    rcases h with ⟨-, rfl, -⟩
    exact List.Forall₂.nil
  | cons b rest ih =>
    intro gen evs blocks' g h
    rw [scheduleTrackBlocks] at h
    rw [if_neg htype] at h
    rcases hd : scheduleDrumPattern b spb st gen with e | ⟨hits, b1, g1⟩
    · rw [hd] at h
      rw [ebind_error] at h
      cases h
    · rw [hd] at h
      rw [ebind_ok] at h
      dsimp only at h
      rcases hrec : scheduleTrackBlocks track spb st rest g1
        with e | ⟨evsR, rest', gR⟩
      · rw [hrec] at h
        rw [ebind_error] at h
        cases h
      · rw [hrec] at h
        rw [ebind_ok] at h
        dsimp only at h
        rw [epure_def] at h
        simp only [Except.ok.injEq, Prod.mk.injEq] at h
        rcases h with ⟨-, rfl, -⟩
        refine List.Forall₂.cons ?_ (ih _ _ _ _ hrec)
        obtain ⟨P, b2, he, rfl⟩ := scheduleDrumPattern_shape _ _ _ _ _ _ _ hd
        exact ⟨P, b2, gen, g1, he, rfl⟩

theorem scheduleTracks_frame (spb : Option ℚ) (st : ℚ)
    (soloActive ims : Bool) :
    ∀ (tracks : List Track) (gen : ℕ) (evs : List AudioEvent)
      (tracks' : List Track) (g : ℕ),
      scheduleTracks spb st soloActive ims tracks gen = .ok (evs, tracks', g) →
      List.Forall₂ (trackScheduledRel ims soloActive) tracks tracks' := by
  intro tracks
  induction tracks with
  | nil =>
    intro gen evs tracks' g h
    rw [scheduleTracks] at h
    rw [epure_def] at h
    simp only [Except.ok.injEq, Prod.mk.injEq] at h
    rcases h with ⟨-, rfl, -⟩
    exact List.Forall₂.nil
  | cons t rest ih =>
    intro gen evs tracks' g h
    rw [scheduleTracks] at h
    by_cases hskip : skipTrack ims soloActive t = true
    · rw [if_pos hskip] at h
      rw [epure_def, ebind_ok] at h
      dsimp only at h
      rcases hrec : scheduleTracks spb st soloActive ims rest gen
        with e | ⟨evsR, rest', gR⟩
      · rw [hrec] at h
        rw [ebind_error] at h
        cases h
      · rw [hrec] at h
        rw [ebind_ok] at h
        dsimp only at h
        rw [epure_def] at h
        simp only [Except.ok.injEq, Prod.mk.injEq] at h
        rcases h with ⟨-, rfl, -⟩
        refine List.Forall₂.cons ?_ (ih _ _ _ _ hrec)
        rw [trackScheduledRel, if_pos (Or.inl hskip)]
    · rw [if_neg hskip] at h
      rcases hb : scheduleTrackBlocks t spb st t.blocks gen
        with e | ⟨evsB, blocks', gB⟩
      · rw [hb] at h
        cases h
      · rw [hb] at h
        rw [ebind_ok] at h
        dsimp only at h
        rw [epure_def, ebind_ok] at h
        dsimp only at h
        rcases hrec : scheduleTracks spb st soloActive ims rest gB
          with e | ⟨evsR, rest', gR⟩
        · rw [hrec] at h
          rw [ebind_error] at h
          cases h
        · rw [hrec] at h
          rw [ebind_ok] at h
          dsimp only at h
          rw [epure_def] at h
          simp only [Except.ok.injEq, Prod.mk.injEq] at h
          rcases h with ⟨-, rfl, -⟩
          refine List.Forall₂.cons ?_ (ih _ _ _ _ hrec)
          by_cases hsyn : t.type = "synth"
          · rw [trackScheduledRel, if_pos (Or.inr hsyn)]
            rw [scheduleTrackBlocks_synth t spb st hsyn _ _ _ _ _ hb]
          · rw [trackScheduledRel,
              if_neg (fun hc => hc.elim hskip hsyn)]
            exact ⟨blocks', rfl,
              scheduleTrackBlocks_drums t spb st hsyn _ _ _ _ _ hb⟩

/-- **C9** (confirmed).  `scheduleProject` is not read-only on the Project:
it returns the project with every scheduled drum-track block's `pattern`
replaced by the normalized pattern `ensureDrumPattern` materializes from
that block (rewriting `rows`, filtering/rewriting `events`, backfilling
`volumes` — the shape established by the C2/C7 development), while
mute/solo-skipped tracks, synth tracks, and every other Project field
(name, bpm, track scalars, block scalars and notes) come back unchanged. -/
theorem scheduleProject_frame (p : Project) (opts : SchedOpts) (gen : ℕ)
    (evs : List AudioEvent) (p' : Project) (g : ℕ)
    (h : scheduleProject p opts gen = .ok (evs, p', g)) :
    p'.name = p.name ∧ p'.bpm = p.bpm ∧
      List.Forall₂ (trackScheduledRel opts.ignoreMuteSolo
        (p.tracks.any (·.solo))) p.tracks p'.tracks := by
  rw [scheduleProject] at h
  dsimp only at h
  rcases ht : scheduleTracks (jsDivQ (some 60) (some p.bpm)) opts.startTime
      (p.tracks.any (·.solo)) opts.ignoreMuteSolo p.tracks gen
    with e | ⟨evs1, tracks', g1⟩
  · rw [ht] at h
    rw [ebind_error] at h
    cases h
  · rw [ht] at h
    rw [ebind_ok] at h
    dsimp only at h
    rw [epure_def] at h
    simp only [Except.ok.injEq, Prod.mk.injEq] at h
    rcases h with ⟨-, rfl, -⟩
    exact ⟨rfl, rfl, scheduleTracks_frame _ _ _ _ _ _ _ _ _ ht⟩

/-- Witness for **C9**: scheduling the demo project (one live drum track
holding a raw array pattern) succeeds and satisfies the frame property; the
first conjunct pins the concrete post-state, whose drum block pattern has
been replaced by the materialized object — so the pass is visibly not
read-only. -/
theorem scheduleProject_frame_witness :
    scheduleProject demoDrumProject ⟨0, false⟩ 0
        = .ok ([], demoProjectAfter, 0)
    ∧ demoProjectAfter.name = demoDrumProject.name
    ∧ demoProjectAfter.bpm = demoDrumProject.bpm
    ∧ List.Forall₂ (trackScheduledRel false (demoDrumProject.tracks.any (·.solo)))
        demoDrumProject.tracks demoProjectAfter.tracks :=
  ⟨rfl, scheduleProject_frame demoDrumProject ⟨0, false⟩ 0 [] demoProjectAfter 0 rfl⟩
